import Mathlib

/-!
# Event connector of the calendar facade

A shallow embedding of `internal/googlecal/connector.go`, `internal/googlecal/errors.go`
and of the error classification of `internal/api/api.go`.

Conventions of the embedding:

* a Go `*T` that is only tested against `nil` and dereferenced is an `Option T`;
* a Go slice is the sequence of its elements (the connector only ranges over, appends to
  and takes the length of slices, which does not tell a nil slice from an empty one);
* a Go `string` is a `String`, its `len` is the number of bytes of its UTF-8 encoding;
* a Go `map[string]bool` is a total function to `Bool` that answers `false` (the zero
  value) on a key that was never stored;
* the credential registry, the client library and the remote calendar are external: their
  answers are fields of a `World`, and every call the connector makes to them is recorded,
  in order, in the trace of the run;
* a Go `panic` is an outcome of its own.
-/

set_option autoImplicit false

namespace calendar

/-- Library type `calendar.EventDateTime`. -/
structure EventDateTime where
  Date : String := ""
  DateTime : String := ""
  TimeZone : String := ""
deriving DecidableEq, Repr

/-- Library type `calendar.EventAttendee` (the fields other than `Email` and
`ResponseStatus` are never read or written by the connector). -/
structure EventAttendee where
  Email : String := ""
  ResponseStatus : String := ""
  DisplayName : String := ""
  Comment : String := ""
  Optional : Bool := false
deriving DecidableEq, Repr

/-- Library type `calendar.EventOrganizer`. -/
structure EventOrganizer where
  DisplayName : String := ""
  Email : String := ""
  Id : String := ""
  Self : Bool := false
deriving DecidableEq, Repr

/-- Library type `calendar.Event`: every field the connector reads or writes, and a
selection of the fields it never touches (`Status` to `Sequence`). The default values are
the Go zero values, so that the empty structure instance is `calendar.Event{}`. -/
structure Event where
  Id : String := ""
  Summary : String := ""
  Description : String := ""
  Location : String := ""
  Start : Option EventDateTime := none
  End : Option EventDateTime := none
  Attendees : List EventAttendee := []
  Organizer : Option EventOrganizer := none
  GuestsCanModify : Bool := false
  GuestsCanInviteOthers : Option Bool := none
  GuestsCanSeeOtherGuests : Option Bool := none
  Visibility : String := ""
  Status : String := ""
  Etag : String := ""
  HtmlLink : String := ""
  Transparency : String := ""
  Recurrence : List String := []
  Sequence : Int := 0
deriving DecidableEq, Repr

/-- Library type `calendar.Events`, the answer of a list call. -/
structure Events where
  Items : List Event := []
  NextPageToken : String := ""
  TimeZone : String := ""
deriving DecidableEq, Repr

end calendar

namespace global

/-- Modelled from the spec: the inbound event type `Event` of package `pkg/googlecal`,
whose declaration is not among the sources. Every field is optional (a Go pointer); the
field names are the ones `connector.go` dereferences. -/
structure Event where
  ID : Option String := none
  Title : Option String := none
  Location : Option String := none
  Description : Option String := none
  Start : Option String := none
  End : Option String := none
  Participants : Option (List String) := none
  Organizer : Option calendar.EventOrganizer := none
deriving DecidableEq, Repr

end global

namespace googlecal

/-- The type `DomainName` of `config.go`. -/
abbrev DomainName := String

/-- Library type `jwt.Config`, the credential the registry stores for a domain. -/
structure JwtConfig where
  Email : String := ""
  Subject : String := ""
  Scopes : List String := []
deriving DecidableEq, Repr

/-- A non-nil `context.Context`. -/
structure Context where
  tag : Nat
deriving DecidableEq, Repr

/-- Library type `calendar.Service`: the client built for a context and a credential. -/
structure Service where
  ctx : Context
  config : JwtConfig
deriving DecidableEq, Repr

/-- An error value produced outside the package (by the client library, the transport or
the remote service): the name of its dynamic type, the methods that type has besides
`Error`, and its message. -/
structure ExternalError where
  typeName : String
  extraMethods : List String
  text : String
deriving DecidableEq, Repr

/-- The non-nil values of Go type `error` the connector can return: the seven package
variables of `errors.go`, each a distinct value made by `fmt.Errorf`, and the errors that
come from outside the package. -/
inductive Error where
  | ErrorMissingEventID
  | ErrorMissingDates
  | ErrorMissingParticipants
  | ErrorBadLocation
  | ErrorMissingTitle
  | ErrorUnknownDomain
  | ErrorBadID
  | external (e : ExternalError)
deriving DecidableEq, Repr

/-- The message `err.Error()`. -/
def Error.text : Error → String
  | .ErrorMissingEventID => "missing event ID"
  | .ErrorMissingDates => "missing start or end date"
  | .ErrorMissingParticipants => "no participants in event. must be at least one"
  | .ErrorBadLocation => "event has empty location"
  | .ErrorMissingTitle => "event has no title"
  | .ErrorUnknownDomain => "provided domain name unknown"
  | .ErrorBadID =>
    "provided ID invalid, must be length 5 to 1024, and contain only lowercase letters and numbers 0-9"
  | .external e => e.text

/-- The calls the connector makes to its collaborators. -/
inductive Action where
  | configLookup (domain : DomainName)
  | newService (ctx : Context) (config : JwtConfig)
  | eventsInsert (calendarId : String) (event : calendar.Event) (sendUpdates : Option String)
  | eventsPatch (calendarId eventId : String) (event : calendar.Event)
      (sendUpdates : Option String)
  | eventsUpdate (calendarId eventId : String) (event : calendar.Event)
      (sendUpdates : Option String)
  | eventsDelete (calendarId eventId : String) (sendUpdates : Option String)
  | eventsGet (calendarId eventId : String)
  | eventsList (calendarId : String) (singleEvents : Option Bool) (showDeleted : Option Bool)
      (timeMin timeMax : Option String)
deriving DecidableEq, Repr

/-- The calls that reach the remote calendar service. Reading the registry and building a
client do not. -/
def Action.isRemote : Action → Bool
  | .configLookup _ => false
  | .newService _ _ => false
  | _ => true

/-- The collaborators of the connector: the registry `configs` filled at start-up, the
client constructor, and the answer of the remote service to each call. -/
structure World where
  configs : DomainName → Option JwtConfig
  newService : Context → JwtConfig → Except ExternalError Service
  insertDo : Service → String → calendar.Event → Option String →
    Except ExternalError calendar.Event
  patchDo : Service → String → String → calendar.Event → Option String →
    Except ExternalError calendar.Event
  updateDo : Service → String → String → calendar.Event → Option String →
    Except ExternalError calendar.Event
  deleteDo : Service → String → String → Option String → Option ExternalError
  getDo : Service → String → String → Except ExternalError calendar.Event
  listDo : Service → String → Option Bool → Option Bool → Option String → Option String →
    Except ExternalError calendar.Events

/-- How a Go function call ends: it returns, or it panics. -/
inductive Outcome (α : Type) where
  | ret (value : α)
  | panic (msg : String)
deriving DecidableEq, Repr

/-- A finished run: how it ended and the calls it made, oldest first. -/
structure Run (α : Type) where
  out : Outcome α
  trace : List Action
deriving DecidableEq, Repr

/-- A run that returns at once. -/
def Run.pure {α : Type} (a : α) : Run α := ⟨.ret a, []⟩

/-- A run that panics at once. -/
def Run.panic {α : Type} (msg : String) : Run α := ⟨.panic msg, []⟩

/-- A run that makes one call and returns its answer. -/
def Run.call {α : Type} (a : Action) (answer : α) : Run α := ⟨.ret answer, [a]⟩

/-- Sequencing: a panic ends the run, otherwise the traces are concatenated. -/
def Run.bind {α β : Type} (r : Run α) (k : α → Run β) : Run β :=
  match r.out with
  | .ret a => ⟨(k a).out, r.trace ++ (k a).trace⟩
  | .panic msg => ⟨.panic msg, r.trace⟩

instance : Monad Run where
  pure := Run.pure
  bind := Run.bind

/-- No call of the run reaches the remote service. -/
def Run.noRemoteCall {α : Type} (r : Run α) : Bool :=
  r.trace.all (fun a => !a.isRemote)

/-- The connector `CalendarConnector`: its domain, its context and its six tri-state
options. -/
structure CalendarConnector where
  domain : DomainName
  context : Option Context
  guestsCanModify : Option Bool := none
  autoAccept : Option Bool := none
  guestsCanInvite : Option Bool := none
  guestsCanSeeGuests : Option Bool := none
  privateEvent : Option Bool := none
  informGuestsAboutUpdates : Option Bool := none
deriving DecidableEq, Repr

/-- The constructor `NewCalendarConnector`. -/
def NewCalendarConnector (ctx : Option Context) (domain : String) : CalendarConnector :=
  { domain := domain, context := ctx }

/-- The method `getCalendarService`. -/
def getCalendarService (w : World) (e : CalendarConnector) : Run (Except Error Service) := do
  let config ← Run.call (.configLookup e.domain) (w.configs e.domain)
  match config with
  | none => pure (.error .ErrorUnknownDomain)
  | some config =>
    match e.context with
    | none => Run.panic "no context provided"
    | some ctx =>
      let srv ← Run.call (.newService ctx config) (w.newService ctx config)
      match srv with
      | .error err => pure (.error (.external err))
      | .ok srv => pure (.ok srv)

/-- The value handed to `SendUpdates`, when the notify option is set and true. -/
def sendUpdates (e : CalendarConnector) : Option String :=
  match e.informGuestsAboutUpdates with
  | some true => some "all"
  | _ => none

/-- The character class `[a-z0-9]`. -/
def lowerAlnum (c : Char) : Bool :=
  (decide (97 ≤ c.toNat) && decide (c.toNat ≤ 122)) ||
    (decide (48 ≤ c.toNat) && decide (c.toNat ≤ 57))

/-- Whether a whole text matches `^[a-z0-9]*$`: every character is in the class. -/
def matchStar : List Char → Bool
  | [] => true
  | c :: cs => lowerAlnum c && matchStar cs

/-- Whether a whole text matches `^[a-z0-9]+$`: a character of the class, then any number
of them. -/
def matchPlus : List Char → Bool
  | [] => false
  | c :: cs => lowerAlnum c && matchStar cs

/-- The call `regexp.MatchString("^[a-z0-9]*$", ID)`: the constant pattern compiles, so
the call answers whether the text matches, with a nil error. -/
def matchStringStar (ID : String) : Except String Bool :=
  .ok (matchStar ID.toList)

/-- The function `isValidEventID`. -/
def isValidEventID (ID : String) : Outcome Bool :=
  if ID.utf8ByteSize < 5 || ID.utf8ByteSize > 1024 then
    .ret false
  else
    match matchStringStar ID with
    | .error err => .panic err
    | .ok matched => .ret matched

/-- The valid ids in the words of the specification, to be compared with `isValidEventID`:
a length of 5 to 1024 characters and a match of `^[a-z0-9]+$`. -/
def specValidEventID (ID : String) : Bool :=
  decide (5 ≤ ID.length) && decide (ID.length ≤ 1024) && matchPlus ID.toList

/-- The function `isNewEventValid`: the error it returns, `none` for nil. -/
def isNewEventValid (event : global.Event) : Option Error :=
  if event.Start = none || event.Start = some "" || event.End = none || event.End = some "" then
    some .ErrorMissingDates
  else if event.Title = none || event.Title = some "" then
    some .ErrorMissingTitle
  else
    none

/-- The response status the merge gives to the attendees it creates. -/
def respStatus (e : CalendarConnector) : String :=
  if e.autoAccept = some true then "accepted" else "needsAction"

/-- The first four statements of `copyGoogleEventUpdate` after its nil guard: the ones
driven by the options of the connector. -/
def copyOptions (e : CalendarConnector) (update : calendar.Event) : calendar.Event :=
  let update := match e.guestsCanModify with
    | some b => { update with GuestsCanModify := b }
    | none => update
  let update := match e.privateEvent with
    | some b => { update with Visibility := if b then "private" else "default" }
    | none => update
  let update := match e.guestsCanInvite with
    | some b => { update with GuestsCanInviteOthers := some b }
    | none => update
  let update := match e.guestsCanSeeGuests with
    | some b => { update with GuestsCanSeeOtherGuests := some b }
    | none => update
  update

/-- The remaining statements of `copyGoogleEventUpdate`: the ones driven by the fields of
the inbound event. The line the method prints to standard output is not part of the
model. -/
def copyEventFields (e : CalendarConnector) (event : global.Event)
    (update : calendar.Event) : calendar.Event :=
  let update := match event.Title with
    | some title => if title ≠ "" then { update with Summary := title } else update
    | none => update
  let update := match event.Location with
    | some location => { update with Location := location }
    | none => update
  let update := match event.Description with
    | some description => { update with Description := description }
    | none => update
  let update := match event.Start with
    | some start =>
      { update with Start := some { DateTime := start, TimeZone := "Europe/Oslo" } }
    | none => update
  let update := match event.End with
    | some stop =>
      { update with End := some { DateTime := stop, TimeZone := "Europe/Oslo" } }
    | none => update
  let update := match event.Participants with
    | some emails =>
      { update with
        Attendees := emails.foldl
          (fun participants participant =>
            participants ++ [{ Email := participant, ResponseStatus := respStatus e }])
          [] }
    | none => update
  let update := match event.Organizer with
    | some organizer => { update with Organizer := some organizer }
    | none => update
  update

/-- The method `copyGoogleEventUpdate`: the event `update` points to after the call, `none`
for a nil pointer. The statements are applied in the order of the source: the option-driven
ones, then the event-driven ones. -/
def copyGoogleEventUpdate (e : CalendarConnector) (event : global.Event) :
    Option calendar.Event → Option calendar.Event
  | none => none
  | some update => some (copyEventFields e event (copyOptions e update))

/-- The event a local variable holds after `copyGoogleEventUpdate` was called with its
address. -/
def mergedInto (e : CalendarConnector) (event : global.Event) (gEvent : calendar.Event) :
    calendar.Event :=
  (copyGoogleEventUpdate e event (some gEvent)).getD gEvent

/-- A panic or a return, as a run without calls. -/
def Run.lift {α : Type} (o : Outcome α) : Run α := ⟨o, []⟩

/-- The method `CreateEvent`: the event id and the error it returns. -/
def CreateEvent (w : World) (e : CalendarConnector) (event : global.Event) :
    Run (String × Option Error) := do
  match isNewEventValid event with
  | some err => pure ("", some err)
  | none =>
    let badID ← (match event.ID with
      | none => pure false
      | some id => do
        let valid ← Run.lift (isValidEventID id)
        pure (!valid))
    if badID then
      pure ("", some .ErrorBadID)
    else
      let srv ← getCalendarService w e
      match srv with
      | .error err => pure ("", some err)
      | .ok srv =>
        let gEvent : calendar.Event := {}
        let gEvent := match event.ID with
          | some id => { gEvent with Id := id }
          | none => gEvent
        let gEvent := mergedInto e event gEvent
        let r ← Run.call (.eventsInsert "primary" gEvent (sendUpdates e))
          (w.insertDo srv "primary" gEvent (sendUpdates e))
        match r with
        | .error err => pure ("", some (.external err))
        | .ok created => pure (created.Id, none)

/-- The error a method returns when it ends with `_, err = call.Do()` and `return err`. -/
def answerError {α : Type} : Except ExternalError α → Option Error
  | .error err => some (.external err)
  | .ok _ => none

/-- The method `DeleteEvent`: the error it returns. -/
def DeleteEvent (w : World) (e : CalendarConnector) (eventID : String) :
    Run (Option Error) := do
  if eventID = "" then
    pure (some .ErrorMissingEventID)
  else
    let config ← Run.call (.configLookup e.domain) (w.configs e.domain)
    match config with
    | none => pure (some .ErrorUnknownDomain)
    | some _ =>
      let srv ← getCalendarService w e
      match srv with
      | .error err => pure (some err)
      | .ok srv =>
        let r ← Run.call (.eventsDelete "primary" eventID (sendUpdates e))
          (w.deleteDo srv "primary" eventID (sendUpdates e))
        pure (r.map Error.external)

/-- The method `PatchEvent`: the error it returns. -/
def PatchEvent (w : World) (e : CalendarConnector) (event : global.Event) :
    Run (Option Error) := do
  match event.ID with
  | none => pure (some .ErrorMissingEventID)
  | some id =>
    if id = "" then
      pure (some .ErrorMissingEventID)
    else
      let srv ← getCalendarService w e
      match srv with
      | .error err => pure (some err)
      | .ok srv =>
        let gEvent := mergedInto e event {}
        let r ← Run.call (.eventsPatch "primary" id gEvent (sendUpdates e))
          (w.patchDo srv "primary" id gEvent (sendUpdates e))
        pure (answerError r)

/-- The method `UpdateEvent`: the error it returns. -/
def UpdateEvent (w : World) (e : CalendarConnector) (event : global.Event) :
    Run (Option Error) := do
  match event.ID with
  | none => pure (some .ErrorMissingEventID)
  | some id =>
    if id = "" then
      pure (some .ErrorMissingEventID)
    else
      match isNewEventValid event with
      | some err => pure (some err)
      | none =>
        let srv ← getCalendarService w e
        match srv with
        | .error err => pure (some err)
        | .ok srv =>
          let gEvent := mergedInto e event {}
          let r ← Run.call (.eventsUpdate "primary" id gEvent (sendUpdates e))
            (w.updateDo srv "primary" id gEvent (sendUpdates e))
          pure (answerError r)

/-- The method `GetCalendarEvent`. -/
def GetCalendarEvent (w : World) (e : CalendarConnector) (ID : String) :
    Run (Except Error calendar.Event) := do
  let config ← Run.call (.configLookup e.domain) (w.configs e.domain)
  match config with
  | none => pure (.error .ErrorUnknownDomain)
  | some _ =>
    let srv ← getCalendarService w e
    match srv with
    | .error err => pure (.error err)
    | .ok srv =>
      let r ← Run.call (.eventsGet "primary" ID) (w.getDo srv "primary" ID)
      match r with
      | .error err => pure (.error (.external err))
      | .ok event => pure (.ok event)

/-- The method `GetEvents`. -/
def GetEvents (w : World) (e : CalendarConnector) (min max : String) (showDeleted : Bool) :
    Run (Except Error calendar.Events) := do
  let config ← Run.call (.configLookup e.domain) (w.configs e.domain)
  match config with
  | none => pure (.error .ErrorUnknownDomain)
  | some _ =>
    let srv ← getCalendarService w e
    match srv with
    | .error err => pure (.error err)
    | .ok srv =>
      let timeMin := if min ≠ "" then some min else none
      let timeMax := if max ≠ "" then some max else none
      let r ← Run.call (.eventsList "primary" (some true) (some showDeleted) timeMin timeMax)
        (w.listDo srv "primary" (some true) (some showDeleted) timeMin timeMax)
      match r with
      | .error err => pure (.error (.external err))
      | .ok events => pure (.ok events)

/-- The empty Go map `map[string]bool{}`: every lookup answers the zero value. -/
def emptyMap : String → Bool := fun _ => false

/-- The Go assignment `m[k] = v`. -/
def mapSet (m : String → Bool) (k : String) (v : Bool) : String → Bool :=
  fun x => if x = k then v else m x

/-- The map `emailsToIgnore` of `RemoveParticipants` after its first loop. -/
def emailsToIgnore (toRemove : List String) : String → Bool :=
  toRemove.foldl (fun m v => mapSet m v true) emptyMap

/-- The slice `participants` of `RemoveParticipants` after its second loop. -/
def remainingParticipants (attendees : List calendar.EventAttendee) (toRemove : List String) :
    List calendar.EventAttendee :=
  attendees.foldl
    (fun participants v =>
      if !emailsToIgnore toRemove v.Email then participants ++ [v] else participants)
    []

/-- The method `RemoveParticipants`: the error it returns. -/
def RemoveParticipants (w : World) (e : CalendarConnector) (eventID : String)
    (toRemove : List String) : Run (Option Error) := do
  if eventID = "" then
    pure (some .ErrorMissingEventID)
  else
    let srv ← getCalendarService w e
    match srv with
    | .error err => pure (some err)
    | .ok srv =>
      let existing ← GetCalendarEvent w e eventID
      match existing with
      | .error err => pure (some err)
      | .ok existingEvent =>
        let participants := remainingParticipants existingEvent.Attendees toRemove
        let patchEvent : calendar.Event := { Attendees := participants }
        if participants.length = 0 then
          let existingEvent := { existingEvent with Attendees := participants }
          let r ← Run.call (.eventsUpdate "primary" eventID existingEvent (sendUpdates e))
            (w.updateDo srv "primary" eventID existingEvent (sendUpdates e))
          pure (answerError r)
        else
          let r ← Run.call (.eventsPatch "primary" eventID patchEvent (sendUpdates e))
            (w.patchDo srv "primary" eventID patchEvent (sendUpdates e))
          pure (answerError r)

/-- The map `existingUsersMap` of `AddParticipants` after its first loop. -/
def existingUsersMap (attendees : List calendar.EventAttendee) : String → Bool :=
  attendees.foldl (fun m v => mapSet m v.Email true) emptyMap

/-- The slice `existingEvent.Attendees` of `AddParticipants` after its second loop. The
map is the one built before the loop: the loop does not store into it. -/
def extendedAttendees (attendees : List calendar.EventAttendee) (toAdd : List String) :
    List calendar.EventAttendee :=
  toAdd.foldl
    (fun current user =>
      if !existingUsersMap attendees user then current ++ [{ Email := user }] else current)
    attendees

/-- The method `AddParticipants`: the error it returns. -/
def AddParticipants (w : World) (e : CalendarConnector) (eventID : String)
    (toAdd : List String) : Run (Option Error) := do
  if eventID = "" then
    pure (some .ErrorMissingEventID)
  else
    let srv ← getCalendarService w e
    match srv with
    | .error err => pure (some err)
    | .ok srv =>
      let existing ← GetCalendarEvent w e eventID
      match existing with
      | .error err => pure (some err)
      | .ok existingEvent =>
        let patchEvent : calendar.Event :=
          { Attendees := extendedAttendees existingEvent.Attendees toAdd }
        let r ← Run.call (.eventsPatch "primary" eventID patchEvent (sendUpdates e))
          (w.patchDo srv "primary" eventID patchEvent (sendUpdates e))
        pure (answerError r)

end googlecal

namespace api

open googlecal

/-- The method set of the interface type `error`. -/
def errorInterface : List String := ["Error"]

/-- The declaration `type UserError error` of `errors.go`: an interface type with the
method set of `error`. -/
def UserError : List String := errorInterface

/-- The methods of the dynamic type of an error value. The package variables are made by
`fmt.Errorf` without a wrapped error, so their dynamic type is the library's plain string
error, whose only method is `Error`; declaring them with type `UserError` does not change
their dynamic type. Every value of type `error` has the method `Error`. -/
def methodSet : Error → List String
  | .external e => "Error" :: e.extraMethods
  | _ => ["Error"]

/-- The Go type assertion `err.(googlecal.UserError)` on a value of type `error`, `none`
being nil: to an interface type, it holds when the value is not nil and its dynamic type
has every method of the interface. -/
def assertUserError : Option Error → Bool
  | none => false
  | some err => UserError.all (fun m => decide (m ∈ methodSet err))

/-- The HTTP status every handler of `api.go` answers for the error of the connector
operation it called: `http.StatusOK` for nil, `http.StatusBadRequest` when the type
assertion holds, `http.StatusInternalServerError` otherwise. -/
def responseStatus (err : Option Error) : Nat :=
  match err with
  | some e => if assertUserError (some e) then 400 else 500
  | none => 200

/-- The status `addEventToGoogle` answers once the body and the query are bound. -/
def addEventToGoogle (w : World) (e : CalendarConnector) (event : global.Event) :
    Outcome Nat :=
  match (CreateEvent w e event).out with
  | .panic msg => .panic msg
  | .ret (_, err) => .ret (responseStatus err)

/-- The status a handler answers for a run that returns an error or nil. -/
def statusOfRun (r : Run (Option Error)) : Outcome Nat :=
  match r.out with
  | .panic msg => .panic msg
  | .ret err => .ret (responseStatus err)

/-- The error of a Go result pair, `none` for nil. -/
def errorOf {α : Type} : Except Error α → Option Error
  | .error err => some err
  | .ok _ => none

/-- The status `deleteEvent` answers. -/
def deleteEvent (w : World) (e : CalendarConnector) (id : String) : Outcome Nat :=
  statusOfRun (DeleteEvent w e id)

/-- The status `updateEvent` answers once the body and the query are bound. -/
def updateEvent (w : World) (e : CalendarConnector) (event : global.Event) : Outcome Nat :=
  statusOfRun (UpdateEvent w e event)

/-- The status `patchEvent` answers once the body and the query are bound. -/
def patchEvent (w : World) (e : CalendarConnector) (event : global.Event) : Outcome Nat :=
  statusOfRun (PatchEvent w e event)

/-- The status `removeParticipants` answers. -/
def removeParticipants (w : World) (e : CalendarConnector) (eventId : String)
    (participants : List String) : Outcome Nat :=
  statusOfRun (RemoveParticipants w e eventId participants)

/-- The status `addParticipants` answers. -/
def addParticipants (w : World) (e : CalendarConnector) (eventId : String)
    (participants : List String) : Outcome Nat :=
  statusOfRun (AddParticipants w e eventId participants)

/-- The status `getEvent` answers: its connector has no option set. -/
def getEvent (w : World) (ctx : Option Context) (domain id : String) : Outcome Nat :=
  match (GetCalendarEvent w (NewCalendarConnector ctx domain) id).out with
  | .panic msg => .panic msg
  | .ret r => .ret (responseStatus (errorOf r))

/-- The status `getEvents` answers: its connector has no option set. -/
def getEvents (w : World) (ctx : Option Context) (domain startTimeMin endTimeMax : String)
    (showDeleted : Bool) : Outcome Nat :=
  match (GetEvents w (NewCalendarConnector ctx domain) startTimeMin endTimeMax showDeleted).out
  with
  | .panic msg => .panic msg
  | .ret r => .ret (responseStatus (errorOf r))

end api

namespace googlecal

/-! ## Concrete collaborators used to instantiate the theorems -/

/-- An attendee with an email and a response status. -/
def attendee (email status : String) : calendar.EventAttendee :=
  { Email := email, ResponseStatus := status }

/-- A remote event with two attendees. -/
def storedEvent : calendar.Event :=
  { Id := "e1abc", Summary := "Review", Description := "agenda", Location := "Room 1",
    Start := some { DateTime := "2021-03-01T10:00:00", TimeZone := "Europe/Oslo" },
    End := some { DateTime := "2021-03-01T11:00:00", TimeZone := "Europe/Oslo" },
    Attendees := [attendee "a@x.com" "accepted", attendee "b@x.com" "needsAction"],
    Status := "confirmed", Etag := "tag7", Sequence := 3 }

/-- A remote event whose only attendee is `a@x.com`. -/
def soloEvent : calendar.Event :=
  { storedEvent with Id := "solo1", Attendees := [attendee "a@x.com" "accepted"] }

/-- A remote event without attendees. -/
def bareEvent : calendar.Event :=
  { storedEvent with Id := "bare1", Attendees := [] }

/-- A world with one registered domain whose remote calendar accepts every call and holds
`soloEvent` under the id `solo1`, `bareEvent` under `bare1` and `storedEvent` under every
other id. -/
def sampleWorld : World where
  configs := fun d => if d = "example.org" then some { Email := "svc@example.org" } else none
  newService := fun ctx config => .ok ⟨ctx, config⟩
  insertDo := fun _ _ event _ => .ok { event with Id := "new01" }
  patchDo := fun _ _ _ event _ => .ok event
  updateDo := fun _ _ _ event _ => .ok event
  deleteDo := fun _ _ _ _ => none
  getDo := fun _ _ id =>
    if id = "solo1" then .ok soloEvent else if id = "bare1" then .ok bareEvent
    else .ok storedEvent
  listDo := fun _ _ _ _ _ _ => .ok { Items := [storedEvent] }

/-- The error of a remote service that is down. -/
def serviceUnavailable : ExternalError :=
  { typeName := "*googleapi.Error", extraMethods := ["Unwrap", "Wrap"],
    text := "googleapi: got HTTP response code 503" }

/-- The same registry with a remote calendar that fails every call. -/
def failingWorld : World where
  configs := sampleWorld.configs
  newService := sampleWorld.newService
  insertDo := fun _ _ _ _ => .error serviceUnavailable
  patchDo := fun _ _ _ _ _ => .error serviceUnavailable
  updateDo := fun _ _ _ _ _ => .error serviceUnavailable
  deleteDo := fun _ _ _ _ => some serviceUnavailable
  getDo := fun _ _ _ => .error serviceUnavailable
  listDo := fun _ _ _ _ _ _ => .error serviceUnavailable

/-- A connector of the registered domain with no option set. -/
def sampleConnector : CalendarConnector :=
  NewCalendarConnector (some ⟨0⟩) "example.org"

/-- A connector of a domain the registry does not know. -/
def strangerConnector : CalendarConnector :=
  NewCalendarConnector (some ⟨0⟩) "nowhere.test"

/-- An inbound event that passes the validation of `CreateEvent`. -/
def sampleEvent : global.Event :=
  { ID := some "e1abc", Title := some "Review", Start := some "2021-03-01T10:00:00",
    End := some "2021-03-01T11:00:00" }

/-! ## Facts about runs -/

@[simp] theorem Run.pure_bind {α β : Type} (a : α) (k : α → Run β) :
    (Pure.pure a : Run α) >>= k = k a := by
  show Run.bind (Run.pure a) k = k a
  simp [Run.bind, Run.pure]

@[simp] theorem Run.call_bind {α β : Type} (a : Action) (x : α) (k : α → Run β) :
    Run.call a x >>= k = ⟨(k x).out, a :: (k x).trace⟩ := by
  show Run.bind (Run.call a x) k = _
  simp [Run.bind, Run.call]

@[simp] theorem Run.lift_ret_bind {α β : Type} (a : α) (k : α → Run β) :
    Run.lift (.ret a) >>= k = k a := by
  show Run.bind (Run.lift (.ret a)) k = k a
  simp [Run.bind, Run.lift]

@[simp] theorem Run.pure_out {α : Type} (a : α) : (Pure.pure a : Run α).out = .ret a := rfl

@[simp] theorem Run.pure_trace {α : Type} (a : α) : (Pure.pure a : Run α).trace = [] := rfl

theorem Run.pure_eq {α : Type} (a : α) : (Pure.pure a : Run α) = ⟨.ret a, []⟩ := rfl

/-! ## Validation before any call (C1) -/

/-- C1: when start or end is absent or empty `CreateEvent` returns the empty id and
`ErrorMissingDates`, and when both are present and non-empty but the title is absent or
empty it returns the empty id and `ErrorMissingTitle`; in both cases the trace is empty:
neither the registry nor the remote service was called, whatever the world, the connector
(domain and options) and the other fields of the event (the id among them). -/
theorem CreateEvent_missing_field (w : World) (e : CalendarConnector)
    (event : global.Event) :
    ((event.Start = none ∨ event.Start = some "" ∨ event.End = none ∨ event.End = some "") →
      CreateEvent w e event = ⟨.ret ("", some .ErrorMissingDates), []⟩) ∧
    ((∃ s, event.Start = some s ∧ s ≠ "") → (∃ t, event.End = some t ∧ t ≠ "") →
      (event.Title = none ∨ event.Title = some "") →
      CreateEvent w e event = ⟨.ret ("", some .ErrorMissingTitle), []⟩) := by
  constructor
  · intro h
    have hv : isNewEventValid event = some .ErrorMissingDates := by
      unfold isNewEventValid
      rcases h with h | h | h | h <;> simp [h]
    simp [CreateEvent, hv, Run.pure_eq]
  · rintro ⟨s, hs, hs0⟩ ⟨t, ht, ht0⟩ h
    have hv : isNewEventValid event = some .ErrorMissingTitle := by
      unfold isNewEventValid
      rcases h with h | h <;> simp [h, hs, ht, hs0, ht0]
    simp [CreateEvent, hv, Run.pure_eq]

/-- C1 at concrete events: one without dates and with an ill-formed id, asked of an
unknown domain, and one with dates and an empty title. -/
theorem CreateEvent_missing_field_witness :
    CreateEvent failingWorld strangerConnector { ID := some "??", Title := some "t" }
        = ⟨.ret ("", some .ErrorMissingDates), []⟩ ∧
    CreateEvent sampleWorld sampleConnector { sampleEvent with Title := some "" }
        = ⟨.ret ("", some .ErrorMissingTitle), []⟩ :=
  ⟨(CreateEvent_missing_field failingWorld strangerConnector
      { ID := some "??", Title := some "t" }).1 (Or.inl rfl),
   (CreateEvent_missing_field sampleWorld sampleConnector
      { sampleEvent with Title := some "" }).2
      ⟨_, rfl, by decide⟩ ⟨_, rfl, by decide⟩ (Or.inr rfl)⟩

/-! ## Error classification of the request adapter (C2) -/

/-- C2, the code at a remote failure: every non-nil error passes the type assertion to
`UserError`, so every handler answers status 400 for it and none ever answers 500; in
particular, when the insert call of a valid create request fails with the remote
service's error, `CreateEvent` returns that error and `addEventToGoogle` answers 400. -/
theorem responseStatus_remote_failure :
    (∀ err : Error, api.assertUserError (some err) = true ∧
      api.responseStatus (some err) = 400) ∧
    CreateEvent failingWorld sampleConnector sampleEvent =
      ⟨.ret ("", some (.external serviceUnavailable)),
        [.configLookup "example.org",
         .newService ⟨0⟩ { Email := "svc@example.org" },
         .eventsInsert "primary" (mergedInto sampleConnector sampleEvent { Id := "e1abc" })
           none]⟩ ∧
    api.addEventToGoogle failingWorld sampleConnector sampleEvent = .ret 400 := by
  refine ⟨?_, ?_, ?_⟩
  · intro err
    cases err <;> simp [api.responseStatus, api.assertUserError, api.UserError,
      api.errorInterface, api.methodSet]
  · decide
  · decide

/-! ## Participant lists (C3, C4) -/

theorem foldl_mapSet_true {α : Type} (key : α → String) (l : List α) (m : String → Bool)
    (x : String) :
    (l.foldl (fun m v => mapSet m (key v) true) m) x = (m x || decide (x ∈ l.map key)) := by
  induction l generalizing m with
  | nil => simp
  | cons a l ih =>
    simp only [List.foldl_cons, ih, mapSet, List.map_cons, List.mem_cons]
    by_cases h : x = key a <;> simp [h]

theorem existingUsersMap_eq (attendees : List calendar.EventAttendee) (x : String) :
    existingUsersMap attendees x = decide (x ∈ attendees.map (fun a => a.Email)) := by
  simp [existingUsersMap, foldl_mapSet_true, emptyMap]

theorem emailsToIgnore_eq (toRemove : List String) (x : String) :
    emailsToIgnore toRemove x = decide (x ∈ toRemove) := by
  have h := foldl_mapSet_true (fun v : String => v) toRemove emptyMap x
  simpa [emailsToIgnore, emptyMap] using h

theorem foldl_append_if {α β : Type} (p : α → Bool) (f : α → β) (l : List α)
    (init : List β) :
    l.foldl (fun acc x => if p x then acc ++ [f x] else acc) init
      = init ++ (l.filter p).map f := by
  induction l generalizing init with
  | nil => simp
  | cons a l ih =>
    simp only [List.foldl_cons, ih, List.filter_cons]
    by_cases h : p a <;> simp [h]

/-- The attendee list `AddParticipants` patches: the fetched attendees, then one new
attendee per occurrence of an input email no fetched attendee has. -/
theorem extendedAttendees_eq (attendees : List calendar.EventAttendee)
    (toAdd : List String) :
    extendedAttendees attendees toAdd
      = attendees ++ (toAdd.filter
          (fun u => !decide (u ∈ attendees.map (fun a => a.Email)))).map
          (fun u => ({ Email := u } : calendar.EventAttendee)) := by
  have hp : (fun u => !existingUsersMap attendees u)
      = (fun u => !decide (u ∈ attendees.map (fun a => a.Email))) := by
    funext u
    rw [existingUsersMap_eq]
  exact (foldl_append_if (fun u => !existingUsersMap attendees u)
    (fun u => ({ Email := u } : calendar.EventAttendee)) toAdd attendees).trans (by rw [hp])

/-- The attendee list `RemoveParticipants` keeps: the fetched attendees whose email is not
to be removed, in their order. -/
theorem remainingParticipants_eq (attendees : List calendar.EventAttendee)
    (toRemove : List String) :
    remainingParticipants attendees toRemove
      = attendees.filter (fun a => !decide (a.Email ∈ toRemove)) := by
  have hp : (fun a : calendar.EventAttendee => !emailsToIgnore toRemove a.Email)
      = (fun a => !decide (a.Email ∈ toRemove)) := by
    funext a
    rw [emailsToIgnore_eq]
  exact (foldl_append_if (fun a : calendar.EventAttendee => !emailsToIgnore toRemove a.Email)
    (fun a => a) attendees []).trans (by rw [hp]; simp)

theorem Run.ret_bind {α β : Type} (a : α) (t : List Action) (k : α → Run β) :
    (⟨.ret a, t⟩ : Run α) >>= k = ⟨(k a).out, t ++ (k a).trace⟩ := rfl

/-- With a registered domain, a context and a client that can be built,
`getCalendarService` returns the client after one registry lookup. -/
theorem getCalendarService_ok (w : World) (e : CalendarConnector) (cfg : JwtConfig)
    (ctx : Context) (srv : Service) (hcfg : w.configs e.domain = some cfg)
    (hctx : e.context = some ctx) (hsrv : w.newService ctx cfg = .ok srv) :
    getCalendarService w e
      = ⟨.ret (.ok srv), [.configLookup e.domain, .newService ctx cfg]⟩ := by
  simp [getCalendarService, hcfg, hctx, hsrv, Run.pure_eq]

/-- With an unregistered domain `getCalendarService` fails after the registry lookup. -/
theorem getCalendarService_unknown (w : World) (e : CalendarConnector)
    (hcfg : w.configs e.domain = none) :
    getCalendarService w e = ⟨.ret (.error .ErrorUnknownDomain), [.configLookup e.domain]⟩ := by
  simp [getCalendarService, hcfg, Run.pure_eq]

/-- The run of `GetCalendarEvent` when the remote service answers with an event. -/
theorem GetCalendarEvent_ok (w : World) (e : CalendarConnector) (cfg : JwtConfig)
    (ctx : Context) (srv : Service) (ID : String) (event : calendar.Event)
    (hcfg : w.configs e.domain = some cfg) (hctx : e.context = some ctx)
    (hsrv : w.newService ctx cfg = .ok srv) (hget : w.getDo srv "primary" ID = .ok event) :
    GetCalendarEvent w e ID
      = ⟨.ret (.ok event), [.configLookup e.domain, .configLookup e.domain,
          .newService ctx cfg, .eventsGet "primary" ID]⟩ := by
  simp [GetCalendarEvent, hcfg, getCalendarService_ok w e cfg ctx srv hcfg hctx hsrv,
    Run.ret_bind, hget, Run.pure_eq]

/-- The run of `AddParticipants` once the event is fetched: one patch call that carries
only the extended attendee list. -/
theorem AddParticipants_run (w : World) (e : CalendarConnector) (cfg : JwtConfig)
    (ctx : Context) (srv : Service) (eventID : String) (toAdd : List String)
    (existing : calendar.Event) (hid : eventID ≠ "")
    (hcfg : w.configs e.domain = some cfg) (hctx : e.context = some ctx)
    (hsrv : w.newService ctx cfg = .ok srv)
    (hget : w.getDo srv "primary" eventID = .ok existing) :
    AddParticipants w e eventID toAdd
      = ⟨.ret (answerError (w.patchDo srv "primary" eventID
            { Attendees := extendedAttendees existing.Attendees toAdd } (sendUpdates e))),
          [.configLookup e.domain, .newService ctx cfg,
           .configLookup e.domain, .configLookup e.domain, .newService ctx cfg,
           .eventsGet "primary" eventID,
           .eventsPatch "primary" eventID
             { Attendees := extendedAttendees existing.Attendees toAdd } (sendUpdates e)]⟩ := by
  simp [AddParticipants, hid, getCalendarService_ok w e cfg ctx srv hcfg hctx hsrv,
    GetCalendarEvent_ok w e cfg ctx srv eventID existing hcfg hctx hsrv hget,
    Run.ret_bind, Run.pure_eq]

/-- How often an email occurs among the attendees `AddParticipants` patches: as often as
among the fetched attendees when it occurs there, as often as in the input otherwise. -/
theorem count_extendedAttendees (attendees : List calendar.EventAttendee)
    (toAdd : List String) (x : String) :
    ((extendedAttendees attendees toAdd).map (fun a => a.Email)).count x
      = if x ∈ attendees.map (fun a => a.Email)
        then (attendees.map (fun a => a.Email)).count x
        else toAdd.count x := by
  rw [extendedAttendees_eq, List.map_append, List.count_append, List.map_map]
  have hmap : ((fun a : calendar.EventAttendee => a.Email) ∘
      fun u => ({ Email := u } : calendar.EventAttendee)) = id := by
    funext u; rfl
  rw [hmap, List.map_id]
  by_cases hx : x ∈ attendees.map (fun a => a.Email)
  · rw [if_pos hx, List.count_eq_zero_of_not_mem (a := x)
      (l := toAdd.filter (fun u => !decide (u ∈ attendees.map (fun a => a.Email))))]
    · rfl
    · intro hmem
      have h2 := (List.mem_filter.mp hmem).2
      simp [hx] at h2
  · rw [if_neg hx, List.count_eq_zero_of_not_mem hx, List.count_filter (by simp [hx])]
    simp

/-- C3 as stated fails: an input list that names a new email twice. The fetched event
`bareEvent` has no attendee (so its attendee emails are pairwise distinct), and the patch
`AddParticipants` sends carries the input email `b@x.com` twice. -/
theorem AddParticipants_repeated_input :
    (bareEvent.Attendees.map (fun a => a.Email)).Nodup ∧
    AddParticipants sampleWorld sampleConnector "bare1" ["b@x.com", "b@x.com"]
      = ⟨.ret none,
          [.configLookup "example.org", .newService ⟨0⟩ { Email := "svc@example.org" },
           .configLookup "example.org", .configLookup "example.org",
           .newService ⟨0⟩ { Email := "svc@example.org" },
           .eventsGet "primary" "bare1",
           .eventsPatch "primary" "bare1"
             { Attendees := [{ Email := "b@x.com" }, { Email := "b@x.com" }] } none]⟩ ∧
    (([{ Email := "b@x.com" }, { Email := "b@x.com" }] :
        List calendar.EventAttendee).map (fun a => a.Email)).count "b@x.com" = 2 := by
  refine ⟨?_, ?_, ?_⟩
  · decide
  · decide
  · decide

/-- C3, amended: when the attendee emails of the fetched event are pairwise distinct and
the input emails are pairwise distinct, `AddParticipants` sends exactly one patch, that
patch carries only an attendee list, and every input email occurs exactly once in it. -/
theorem AddParticipants_each_input_once (w : World) (e : CalendarConnector)
    (cfg : JwtConfig) (ctx : Context) (srv : Service) (eventID : String)
    (toAdd : List String) (existing : calendar.Event) (hid : eventID ≠ "")
    (hcfg : w.configs e.domain = some cfg) (hctx : e.context = some ctx)
    (hsrv : w.newService ctx cfg = .ok srv)
    (hget : w.getDo srv "primary" eventID = .ok existing)
    (hdistinct : (existing.Attendees.map (fun a => a.Email)).Nodup)
    (hinput : toAdd.Nodup) :
    ∃ sent : List calendar.EventAttendee,
      (AddParticipants w e eventID toAdd).trace.filter Action.isRemote
        = [.eventsGet "primary" eventID,
           .eventsPatch "primary" eventID { Attendees := sent } (sendUpdates e)] ∧
      ∀ x ∈ toAdd, (sent.map (fun a => a.Email)).count x = 1 := by
  refine ⟨extendedAttendees existing.Attendees toAdd, ?_, ?_⟩
  · rw [AddParticipants_run w e cfg ctx srv eventID toAdd existing hid hcfg hctx hsrv hget]
    simp [Action.isRemote]
  · intro x hx
    rw [count_extendedAttendees]
    split
    · next h => exact List.count_eq_one_of_mem hdistinct h
    · exact List.count_eq_one_of_mem hinput hx

/-- C3 at the example of the specification: adding `a@x.com` and `b@x.com` to the event
`soloEvent`, whose only attendee is `a@x.com`. -/
theorem AddParticipants_each_input_once_witness :
    ∃ sent : List calendar.EventAttendee,
      (AddParticipants sampleWorld sampleConnector "solo1" ["a@x.com", "b@x.com"]).trace.filter
          Action.isRemote
        = [.eventsGet "primary" "solo1",
           .eventsPatch "primary" "solo1" { Attendees := sent } (sendUpdates sampleConnector)] ∧
      ∀ x ∈ ["a@x.com", "b@x.com"], (sent.map (fun a => a.Email)).count x = 1 :=
  AddParticipants_each_input_once sampleWorld sampleConnector { Email := "svc@example.org" }
    ⟨0⟩ ⟨⟨0⟩, { Email := "svc@example.org" }⟩ "solo1" ["a@x.com", "b@x.com"] soloEvent
    (by decide) rfl rfl rfl rfl (by decide) (by decide)

/-- C4: with a non-empty event id, a registered domain and a fetched event, let `kept` be
the fetched attendees whose email is not in `toRemove`, in their original order. When
`kept` is not empty `RemoveParticipants` ends with one patch call whose event carries only
`kept` as attendee list (every other field has its zero value); when `kept` is empty it
ends with one update call whose event is the fetched event with an empty attendee list.
In both cases the method returns the error of that call. -/
theorem RemoveParticipants_calls (w : World) (e : CalendarConnector) (cfg : JwtConfig)
    (ctx : Context) (srv : Service) (eventID : String) (toRemove : List String)
    (existing : calendar.Event) (hid : eventID ≠ "")
    (hcfg : w.configs e.domain = some cfg) (hctx : e.context = some ctx)
    (hsrv : w.newService ctx cfg = .ok srv)
    (hget : w.getDo srv "primary" eventID = .ok existing) :
    (existing.Attendees.filter (fun a => !decide (a.Email ∈ toRemove)) ≠ [] →
      RemoveParticipants w e eventID toRemove
        = ⟨.ret (answerError (w.patchDo srv "primary" eventID
              { Attendees := existing.Attendees.filter (fun a => !decide (a.Email ∈ toRemove)) }
              (sendUpdates e))),
            [.configLookup e.domain, .newService ctx cfg,
             .configLookup e.domain, .configLookup e.domain, .newService ctx cfg,
             .eventsGet "primary" eventID,
             .eventsPatch "primary" eventID
               { Attendees := existing.Attendees.filter (fun a => !decide (a.Email ∈ toRemove)) }
               (sendUpdates e)]⟩) ∧
    (existing.Attendees.filter (fun a => !decide (a.Email ∈ toRemove)) = [] →
      RemoveParticipants w e eventID toRemove
        = ⟨.ret (answerError (w.updateDo srv "primary" eventID
              { existing with Attendees := [] } (sendUpdates e))),
            [.configLookup e.domain, .newService ctx cfg,
             .configLookup e.domain, .configLookup e.domain, .newService ctx cfg,
             .eventsGet "primary" eventID,
             .eventsUpdate "primary" eventID { existing with Attendees := [] }
               (sendUpdates e)]⟩) := by
  have hrun : RemoveParticipants w e eventID toRemove
      = if (remainingParticipants existing.Attendees toRemove).length = 0 then
          ⟨.ret (answerError (w.updateDo srv "primary" eventID
              { existing with Attendees := remainingParticipants existing.Attendees toRemove }
              (sendUpdates e))),
            [.configLookup e.domain, .newService ctx cfg,
             .configLookup e.domain, .configLookup e.domain, .newService ctx cfg,
             .eventsGet "primary" eventID,
             .eventsUpdate "primary" eventID
               { existing with Attendees := remainingParticipants existing.Attendees toRemove }
               (sendUpdates e)]⟩
        else
          ⟨.ret (answerError (w.patchDo srv "primary" eventID
              { Attendees := remainingParticipants existing.Attendees toRemove }
              (sendUpdates e))),
            [.configLookup e.domain, .newService ctx cfg,
             .configLookup e.domain, .configLookup e.domain, .newService ctx cfg,
             .eventsGet "primary" eventID,
             .eventsPatch "primary" eventID
               { Attendees := remainingParticipants existing.Attendees toRemove }
               (sendUpdates e)]⟩ := by
    unfold RemoveParticipants
    rw [if_neg hid, getCalendarService_ok w e cfg ctx srv hcfg hctx hsrv, Run.ret_bind]
    simp only [GetCalendarEvent_ok w e cfg ctx srv eventID existing hcfg hctx hsrv hget,
      Run.ret_bind]
    split <;> simp [Run.pure_eq]
  rw [hrun, remainingParticipants_eq]
  constructor
  · intro hkept
    rw [if_neg (by simpa using hkept)]
  · intro hkept
    rw [hkept]
    rfl

/-- C4 at the examples of the specification: from the attendees `a@x.com`, `b@x.com` of
`storedEvent`, removing `a@x.com` patches the list down to `b@x.com`, and removing both
updates the whole fetched event with an empty list. -/
theorem RemoveParticipants_calls_witness :
    (RemoveParticipants sampleWorld sampleConnector "e1abc" ["a@x.com"]).trace.filter
        Action.isRemote
      = [.eventsGet "primary" "e1abc",
         .eventsPatch "primary" "e1abc" { Attendees := [attendee "b@x.com" "needsAction"] }
           none] ∧
    (RemoveParticipants sampleWorld sampleConnector "e1abc" ["a@x.com", "b@x.com"]).trace.filter
        Action.isRemote
      = [.eventsGet "primary" "e1abc",
         .eventsUpdate "primary" "e1abc" { storedEvent with Attendees := [] } none] := by
  have h := RemoveParticipants_calls sampleWorld sampleConnector { Email := "svc@example.org" }
    ⟨0⟩ ⟨⟨0⟩, { Email := "svc@example.org" }⟩ "e1abc"
  constructor
  · rw [(h ["a@x.com"] storedEvent (by decide) rfl rfl rfl rfl).1 (by decide)]
    decide
  · rw [(h ["a@x.com", "b@x.com"] storedEvent (by decide) rfl rfl rfl rfl).2 (by decide)]
    decide

/-! ## The field merge (C5, C10) -/

/-- The merge never returns nil for a non-nil target. -/
theorem copyGoogleEventUpdate_some (e : CalendarConnector) (event : global.Event)
    (target : calendar.Event) :
    copyGoogleEventUpdate e event (some target) = some (mergedInto e event target) := by
  simp [mergedInto, copyGoogleEventUpdate]

/-- Every field of the event after the option-driven statements. -/
theorem copyOptions_fields (e : CalendarConnector) (u : calendar.Event) :
    copyOptions e u =
      { u with
        GuestsCanModify := match e.guestsCanModify with
          | some b => b
          | none => u.GuestsCanModify
        GuestsCanInviteOthers := match e.guestsCanInvite with
          | some b => some b
          | none => u.GuestsCanInviteOthers
        GuestsCanSeeOtherGuests := match e.guestsCanSeeGuests with
          | some b => some b
          | none => u.GuestsCanSeeOtherGuests
        Visibility := match e.privateEvent with
          | some b => if b then "private" else "default"
          | none => u.Visibility } := by
  obtain ⟨d, c, o1, o2, o3, o4, o5, o6⟩ := e
  cases o1 <;> cases o3 <;> cases o4 <;> cases o5 <;> rfl

/-- Every field of the event after the event-driven statements. -/
theorem copyEventFields_fields (e : CalendarConnector) (event : global.Event)
    (u : calendar.Event) :
    copyEventFields e event u =
      { u with
        Summary := match event.Title with
          | some title => if title ≠ "" then title else u.Summary
          | none => u.Summary
        Description := match event.Description with
          | some description => description
          | none => u.Description
        Location := match event.Location with
          | some location => location
          | none => u.Location
        Start := match event.Start with
          | some start => some { DateTime := start, TimeZone := "Europe/Oslo" }
          | none => u.Start
        End := match event.End with
          | some stop => some { DateTime := stop, TimeZone := "Europe/Oslo" }
          | none => u.End
        Attendees := match event.Participants with
          | some emails => emails.foldl
              (fun participants participant =>
                participants ++ [{ Email := participant, ResponseStatus := respStatus e }])
              []
          | none => u.Attendees
        Organizer := match event.Organizer with
          | some organizer => some organizer
          | none => u.Organizer } := by
  obtain ⟨id, ti, lo, de, st, en, pa, og⟩ := event
  cases ti with
  | none =>
    cases lo <;> cases de <;> cases st <;> cases en <;> cases pa <;> cases og <;> rfl
  | some title =>
    by_cases h : title = ""
    · subst h
      cases lo <;> cases de <;> cases st <;> cases en <;> cases pa <;> cases og <;> rfl
    · simp only [copyEventFields, ne_eq, h, not_false_eq_true, ite_true]
      cases lo <;> cases de <;> cases st <;> cases en <;> cases pa <;> cases og <;> rfl

/-- Every field of the merged event, in terms of the target, the options and the inbound
event. -/
theorem mergedInto_fields (e : CalendarConnector) (event : global.Event)
    (target : calendar.Event) :
    mergedInto e event target =
      { Id := target.Id
        Summary := match event.Title with
          | some title => if title ≠ "" then title else target.Summary
          | none => target.Summary
        Description := match event.Description with
          | some description => description
          | none => target.Description
        Location := match event.Location with
          | some location => location
          | none => target.Location
        Start := match event.Start with
          | some start => some { DateTime := start, TimeZone := "Europe/Oslo" }
          | none => target.Start
        End := match event.End with
          | some stop => some { DateTime := stop, TimeZone := "Europe/Oslo" }
          | none => target.End
        Attendees := match event.Participants with
          | some emails => emails.foldl
              (fun participants participant =>
                participants ++ [{ Email := participant, ResponseStatus := respStatus e }])
              []
          | none => target.Attendees
        Organizer := match event.Organizer with
          | some organizer => some organizer
          | none => target.Organizer
        GuestsCanModify := match e.guestsCanModify with
          | some b => b
          | none => target.GuestsCanModify
        GuestsCanInviteOthers := match e.guestsCanInvite with
          | some b => some b
          | none => target.GuestsCanInviteOthers
        GuestsCanSeeOtherGuests := match e.guestsCanSeeGuests with
          | some b => some b
          | none => target.GuestsCanSeeOtherGuests
        Visibility := match e.privateEvent with
          | some b => if b then "private" else "default"
          | none => target.Visibility
        Status := target.Status
        Etag := target.Etag
        HtmlLink := target.HtmlLink
        Transparency := target.Transparency
        Recurrence := target.Recurrence
        Sequence := target.Sequence } := by
  show copyEventFields e event (copyOptions e target) = _
  rw [copyOptions_fields, copyEventFields_fields]

/-- C5: `copyGoogleEventUpdate` on a target: the four option-driven fields keep their
value when their option is unset, the seven event-driven fields keep their value when
their event field is absent, the fields no statement of the merge names always keep their
value, and with those four options unset and those seven event fields absent the target is
returned unchanged (whatever the auto-accept and notify options and the inbound id are). -/
theorem copyGoogleEventUpdate_frame (e : CalendarConnector) (event : global.Event)
    (target : calendar.Event) :
    copyGoogleEventUpdate e event (some target) = some (mergedInto e event target) ∧
    (e.guestsCanModify = none →
      (mergedInto e event target).GuestsCanModify = target.GuestsCanModify) ∧
    (e.privateEvent = none → (mergedInto e event target).Visibility = target.Visibility) ∧
    (e.guestsCanInvite = none →
      (mergedInto e event target).GuestsCanInviteOthers = target.GuestsCanInviteOthers) ∧
    (e.guestsCanSeeGuests = none →
      (mergedInto e event target).GuestsCanSeeOtherGuests = target.GuestsCanSeeOtherGuests) ∧
    (event.Title = none → (mergedInto e event target).Summary = target.Summary) ∧
    (event.Location = none → (mergedInto e event target).Location = target.Location) ∧
    (event.Description = none →
      (mergedInto e event target).Description = target.Description) ∧
    (event.Start = none → (mergedInto e event target).Start = target.Start) ∧
    (event.End = none → (mergedInto e event target).End = target.End) ∧
    (event.Participants = none → (mergedInto e event target).Attendees = target.Attendees) ∧
    (event.Organizer = none → (mergedInto e event target).Organizer = target.Organizer) ∧
    ((mergedInto e event target).Id = target.Id ∧
      (mergedInto e event target).Status = target.Status ∧
      (mergedInto e event target).Etag = target.Etag ∧
      (mergedInto e event target).HtmlLink = target.HtmlLink ∧
      (mergedInto e event target).Transparency = target.Transparency ∧
      (mergedInto e event target).Recurrence = target.Recurrence ∧
      (mergedInto e event target).Sequence = target.Sequence) ∧
    (e.guestsCanModify = none → e.privateEvent = none → e.guestsCanInvite = none →
      e.guestsCanSeeGuests = none → event.Title = none → event.Location = none →
      event.Description = none → event.Start = none → event.End = none →
      event.Participants = none → event.Organizer = none →
      copyGoogleEventUpdate e event (some target) = some target) := by
  rw [copyGoogleEventUpdate_some, mergedInto_fields]
  refine ⟨rfl, ?_, ?_, ?_, ?_, ?_, ?_, ?_, ?_, ?_, ?_, ?_, ?_, ?_⟩
  · intro h; simp only [h]
  · intro h; simp only [h]
  · intro h; simp only [h]
  · intro h; simp only [h]
  · intro h; simp only [h]
  · intro h; simp only [h]
  · intro h; simp only [h]
  · intro h; simp only [h]
  · intro h; simp only [h]
  · intro h; simp only [h]
  · intro h; simp only [h]
  · exact ⟨rfl, rfl, rfl, rfl, rfl, rfl, rfl⟩
  · intro h1 h2 h3 h4 h5 h6 h7 h8 h9 h10 h11
    simp only [h1, h2, h3, h4, h5, h6, h7, h8, h9, h10, h11]

/-- C5 at a concrete merge: a connector with only the auto-accept and notify options set
and an inbound event with only an id leave `storedEvent` unchanged. -/
theorem copyGoogleEventUpdate_frame_witness :
    copyGoogleEventUpdate
        { sampleConnector with autoAccept := some true, informGuestsAboutUpdates := some true }
        { ID := some "e1abc" } (some storedEvent)
      = some storedEvent :=
  (copyGoogleEventUpdate_frame
      { sampleConnector with autoAccept := some true, informGuestsAboutUpdates := some true }
      { ID := some "e1abc" } storedEvent).2.2.2.2.2.2.2.2.2.2.2.2.2
    rfl rfl rfl rfl rfl rfl rfl rfl rfl rfl rfl

/-- C10: the merged summary is the inbound title when that is present and not empty and
the target summary otherwise; the merged location and description are the inbound ones
whenever they are present, the empty string included; and merging an inbound event that has
only `description = ""` gives the target with an empty description (title, start and end
among the fields that keep their value) when no option is set, and for every option
setting a result whose description is empty and whose summary, start and end are the
target ones. -/
theorem copyGoogleEventUpdate_text_fields (e : CalendarConnector) (event : global.Event)
    (target : calendar.Event) :
    (∀ title, event.Title = some title → title ≠ "" →
      (mergedInto e event target).Summary = title) ∧
    (event.Title = some "" → (mergedInto e event target).Summary = target.Summary) ∧
    (event.Title = none → (mergedInto e event target).Summary = target.Summary) ∧
    (∀ location, event.Location = some location →
      (mergedInto e event target).Location = location) ∧
    (∀ description, event.Description = some description →
      (mergedInto e event target).Description = description) ∧
    (mergedInto e { Description := some "" } target).Description = "" ∧
    (mergedInto e { Description := some "" } target).Summary = target.Summary ∧
    (mergedInto e { Description := some "" } target).Start = target.Start ∧
    (mergedInto e { Description := some "" } target).End = target.End ∧
    copyGoogleEventUpdate (NewCalendarConnector e.context e.domain) { Description := some "" }
        (some target)
      = some { target with Description := "" } := by
  rw [copyGoogleEventUpdate_some]
  simp only [mergedInto_fields]
  refine ⟨?_, ?_, ?_, ?_, ?_, trivial, trivial, trivial, trivial, rfl⟩
  · intro title h hne; simp only [h, ne_eq, hne, not_false_eq_true, ite_true]
  · intro h; simp only [h, ne_eq, not_true_eq_false, ite_false]
  · intro h; simp only [h]
  · intro location h; simp only [h]
  · intro description h; simp only [h]

/-- C10 at a concrete merge: an inbound event with only an empty description, merged onto
`storedEvent` by a connector that has every option set. -/
theorem copyGoogleEventUpdate_text_fields_witness :
    (mergedInto
        { sampleConnector with
          guestsCanModify := some true, privateEvent := some true,
          guestsCanInvite := some false, guestsCanSeeGuests := some false,
          autoAccept := some true, informGuestsAboutUpdates := some true }
        { Description := some "" } storedEvent).Description = "" ∧
    (mergedInto sampleConnector { Title := some "", Location := some "" } storedEvent).Summary
      = "Review" ∧
    (mergedInto sampleConnector { Title := some "", Location := some "" } storedEvent).Location
      = "" :=
  ⟨(copyGoogleEventUpdate_text_fields _ { Description := some "" } storedEvent).2.2.2.2.1
      "" rfl,
   (copyGoogleEventUpdate_text_fields sampleConnector { Title := some "", Location := some "" }
      storedEvent).2.1 rfl,
   (copyGoogleEventUpdate_text_fields sampleConnector { Title := some "", Location := some "" }
      storedEvent).2.2.2.1 "" rfl⟩

/-! ## Unknown domain (C6) -/

/-- C6: for a connector whose domain the registry does not hold, every operation returns
`ErrorUnknownDomain` and its trace holds registry lookups only, so no remote call is made:
`GetEvents` and `GetCalendarEvent` for all their arguments, `CreateEvent` for every event
that passes `isNewEventValid` and whose id, when present, passes `isValidEventID`,
`UpdateEvent` for every event with a non-empty id that passes `isNewEventValid`,
`PatchEvent` for every event with a non-empty id, and `DeleteEvent`, `AddParticipants` and
`RemoveParticipants` for every non-empty event id. -/
theorem unknown_domain_fails (w : World) (e : CalendarConnector)
    (hdomain : w.configs e.domain = none) :
    (∀ min max showDeleted, GetEvents w e min max showDeleted
      = ⟨.ret (.error .ErrorUnknownDomain), [.configLookup e.domain]⟩) ∧
    (∀ ID, GetCalendarEvent w e ID
      = ⟨.ret (.error .ErrorUnknownDomain), [.configLookup e.domain]⟩) ∧
    (∀ event, isNewEventValid event = none →
      (∀ id, event.ID = some id → isValidEventID id = .ret true) →
      CreateEvent w e event
        = ⟨.ret ("", some .ErrorUnknownDomain), [.configLookup e.domain]⟩) ∧
    (∀ event id, event.ID = some id → id ≠ "" → isNewEventValid event = none →
      UpdateEvent w e event = ⟨.ret (some .ErrorUnknownDomain), [.configLookup e.domain]⟩) ∧
    (∀ event id, event.ID = some id → id ≠ "" →
      PatchEvent w e event = ⟨.ret (some .ErrorUnknownDomain), [.configLookup e.domain]⟩) ∧
    (∀ eventID, eventID ≠ "" →
      DeleteEvent w e eventID = ⟨.ret (some .ErrorUnknownDomain), [.configLookup e.domain]⟩) ∧
    (∀ eventID toAdd, eventID ≠ "" →
      AddParticipants w e eventID toAdd
        = ⟨.ret (some .ErrorUnknownDomain), [.configLookup e.domain]⟩) ∧
    (∀ eventID toRemove, eventID ≠ "" →
      RemoveParticipants w e eventID toRemove
        = ⟨.ret (some .ErrorUnknownDomain), [.configLookup e.domain]⟩) ∧
    (⟨.ret (some Error.ErrorUnknownDomain), [.configLookup e.domain]⟩ :
      Run (Option Error)).noRemoteCall = true := by
  have hsrv := getCalendarService_unknown w e hdomain
  refine ⟨?_, ?_, ?_, ?_, ?_, ?_, ?_, ?_, ?_⟩
  · intro min max showDeleted
    simp [GetEvents, hdomain, Run.pure_eq]
  · intro ID
    simp [GetCalendarEvent, hdomain, Run.pure_eq]
  · intro event hvalid hid
    cases hID : event.ID with
    | none => simp [CreateEvent, hvalid, hID, hsrv, Run.ret_bind, Run.pure_eq]
    | some id =>
      simp [CreateEvent, hvalid, hID, hid id hID, hsrv, Run.ret_bind, Run.pure_eq]
  · intro event id hID hne hvalid
    simp [UpdateEvent, hID, hne, hvalid, hsrv, Run.ret_bind, Run.pure_eq]
  · intro event id hID hne
    simp [PatchEvent, hID, hne, hsrv, Run.ret_bind, Run.pure_eq]
  · intro eventID hne
    simp [DeleteEvent, hne, hdomain, Run.pure_eq]
  · intro eventID toAdd hne
    simp [AddParticipants, hne, hsrv, Run.ret_bind, Run.pure_eq]
  · intro eventID toRemove hne
    simp [RemoveParticipants, hne, hsrv, Run.ret_bind, Run.pure_eq]
  · simp [Run.noRemoteCall, Action.isRemote]

/-- C6 at the connector of an unregistered domain, whose remote service would fail every
call: listing, and creating a valid event. -/
theorem unknown_domain_fails_witness :
    GetEvents failingWorld strangerConnector "2021-01-01T00:00:00Z" "" true
      = ⟨.ret (.error .ErrorUnknownDomain), [.configLookup "nowhere.test"]⟩ ∧
    CreateEvent failingWorld strangerConnector sampleEvent
      = ⟨.ret ("", some .ErrorUnknownDomain), [.configLookup "nowhere.test"]⟩ :=
  ⟨(unknown_domain_fails failingWorld strangerConnector rfl).1 "2021-01-01T00:00:00Z" "" true,
   (unknown_domain_fails failingWorld strangerConnector rfl).2.2.1 sampleEvent (by decide)
     (by intro id h; cases h; decide)⟩

/-! ## Order of the validations (C7, C8, C9) -/

/-- A character of the class is encoded in one byte. -/
theorem lowerAlnum_utf8Size (c : Char) (h : lowerAlnum c = true) : c.utf8Size = 1 := by
  have h127 : c.toNat ≤ 127 := by
    simp only [lowerAlnum, Bool.or_eq_true, Bool.and_eq_true, decide_eq_true_eq] at h
    omega
  have hv : c.val ≤ 127 := by
    rw [UInt32.le_def]
    exact h127
  simp [Char.utf8Size, hv]

/-- A text has at least as many bytes as characters. -/
theorem length_le_byteSize (cs : List Char) : cs.length ≤ String.utf8ByteSize.go cs := by
  induction cs with
  | nil => simp [String.utf8ByteSize.go]
  | cons c cs ih =>
    have := Char.utf8Size_pos c
    simp only [String.utf8ByteSize.go, List.length_cons]
    omega

/-- A text of the class has as many bytes as characters. -/
theorem matchStar_byteSize (cs : List Char) (h : matchStar cs = true) :
    String.utf8ByteSize.go cs = cs.length := by
  induction cs with
  | nil => simp [String.utf8ByteSize.go]
  | cons c cs ih =>
    simp only [matchStar, Bool.and_eq_true] at h
    simp only [String.utf8ByteSize.go, List.length_cons, ih h.2, lowerAlnum_utf8Size c h.1]

/-- An id that fails `^[a-z0-9]+$`, or whose length, counted in bytes or in characters, is
outside of 5 to 1024, is rejected by `isValidEventID`, which does not panic. -/
theorem isValidEventID_false (id : String)
    (hbad : matchPlus id.toList = false ∨ id.utf8ByteSize < 5 ∨ 1024 < id.utf8ByteSize ∨
      id.length < 5 ∨ 1024 < id.length) :
    isValidEventID id = .ret false := by
  obtain ⟨cs⟩ := id
  simp only [String.toList, String.utf8ByteSize, String.length] at hbad
  unfold isValidEventID
  simp only [String.utf8ByteSize, matchStringStar, String.toList]
  split
  · rfl
  · next hcond =>
    have hlen : ¬ (String.utf8ByteSize.go cs < 5 ∨ String.utf8ByteSize.go cs > 1024) := by
      intro h
      apply hcond
      simp only [Bool.or_eq_true, decide_eq_true_eq]
      exact h
    have hstar : matchStar cs = false := by
      by_contra hne
      have ht : matchStar cs = true := by
        cases hm : matchStar cs
        · exact absurd hm hne
        · rfl
      have hb := matchStar_byteSize cs ht
      rcases hbad with h | h | h | h | h
      · cases cs with
        | nil => exact hlen (Or.inl (by decide))
        | cons c cs' =>
          simp only [matchPlus] at h
          simp only [matchStar] at ht
          rw [ht] at h
          cases h
      · exact hlen (Or.inl h)
      · exact hlen (Or.inr h)
      · exact hlen (Or.inl (by omega))
      · exact hlen (Or.inr (by omega))
    show Outcome.ret (matchStar cs) = .ret false
    rw [hstar]

/-- C7 as stated fails: an event whose id `A` fails the pattern and is too short, and
which has no start. `CreateEvent` checks the dates first and returns `ErrorMissingDates`,
not `ErrorBadID`. -/
theorem CreateEvent_bad_id_without_dates :
    matchPlus "A".toList = false ∧ "A".utf8ByteSize < 5 ∧
    CreateEvent sampleWorld sampleConnector { ID := some "A", Title := some "Review" }
      = ⟨.ret ("", some .ErrorMissingDates), []⟩ ∧
    (CreateEvent sampleWorld sampleConnector { ID := some "A", Title := some "Review" }).out
      ≠ .ret ("", some .ErrorBadID) := by
  decide

/-- C7, amended: for every event whose start, end and title are present and not empty and
whose id is present and either fails `^[a-z0-9]+$` or has a length (in bytes, which is what
the code measures, or in characters) outside of 5 to 1024, `CreateEvent` returns the empty
id and `ErrorBadID`, before any registry lookup or remote call. -/
theorem CreateEvent_bad_id (w : World) (e : CalendarConnector) (event : global.Event)
    (id : String)
    (hstart : ∃ s, event.Start = some s ∧ s ≠ "") (hend : ∃ t, event.End = some t ∧ t ≠ "")
    (htitle : ∃ t, event.Title = some t ∧ t ≠ "") (hid : event.ID = some id)
    (hbad : matchPlus id.toList = false ∨ id.utf8ByteSize < 5 ∨ 1024 < id.utf8ByteSize ∨
      id.length < 5 ∨ 1024 < id.length) :
    CreateEvent w e event = ⟨.ret ("", some .ErrorBadID), []⟩ := by
  obtain ⟨s, hs, hs0⟩ := hstart
  obtain ⟨t, ht, ht0⟩ := hend
  obtain ⟨title, hti, hti0⟩ := htitle
  have hv : isNewEventValid event = none := by
    simp [isNewEventValid, hs, ht, hti, hs0, ht0, hti0]
  simp [CreateEvent, hv, hid, isValidEventID_false id hbad, Run.ret_bind, Run.pure_eq]

/-- C7 at concrete events with dates and title: an id with an upper-case letter, and an id
of four characters. -/
theorem CreateEvent_bad_id_witness :
    CreateEvent sampleWorld sampleConnector { sampleEvent with ID := some "Event01" }
      = ⟨.ret ("", some .ErrorBadID), []⟩ ∧
    CreateEvent sampleWorld sampleConnector { sampleEvent with ID := some "ab12" }
      = ⟨.ret ("", some .ErrorBadID), []⟩ :=
  ⟨CreateEvent_bad_id sampleWorld sampleConnector { sampleEvent with ID := some "Event01" }
      "Event01" ⟨_, rfl, by decide⟩ ⟨_, rfl, by decide⟩ ⟨_, rfl, by decide⟩ rfl
      (Or.inl (by decide)),
   CreateEvent_bad_id sampleWorld sampleConnector { sampleEvent with ID := some "ab12" }
      "ab12" ⟨_, rfl, by decide⟩ ⟨_, rfl, by decide⟩ ⟨_, rfl, by decide⟩ rfl
      (Or.inr (Or.inl (by decide)))⟩

/-- C8 as stated fails: an event with a title, without start and end and without id.
`UpdateEvent` checks the id first and returns `ErrorMissingEventID`, neither
`ErrorMissingDates` nor `ErrorMissingTitle`. -/
theorem UpdateEvent_missing_dates_without_id :
    ({ Title := some "Review" } : global.Event).Start = none ∧
    UpdateEvent sampleWorld sampleConnector { Title := some "Review" }
      = ⟨.ret (some .ErrorMissingEventID), []⟩ ∧
    (UpdateEvent sampleWorld sampleConnector { Title := some "Review" }).out
      ≠ .ret (some .ErrorMissingDates) ∧
    (UpdateEvent sampleWorld sampleConnector { Title := some "Review" }).out
      ≠ .ret (some .ErrorMissingTitle) := by
  decide

/-- C8, amended: for every event whose id is present and not empty, `UpdateEvent` returns
`ErrorMissingDates` when start or end is absent or empty, and `ErrorMissingTitle` when
start and end are present and not empty and the title is absent or empty; in both cases
the trace is empty, so no remote call (and no registry lookup) is made. -/
theorem UpdateEvent_missing_field (w : World) (e : CalendarConnector)
    (event : global.Event) (id : String) (hid : event.ID = some id) (hne : id ≠ "") :
    ((event.Start = none ∨ event.Start = some "" ∨ event.End = none ∨ event.End = some "") →
      UpdateEvent w e event = ⟨.ret (some .ErrorMissingDates), []⟩) ∧
    ((∃ s, event.Start = some s ∧ s ≠ "") → (∃ t, event.End = some t ∧ t ≠ "") →
      (event.Title = none ∨ event.Title = some "") →
      UpdateEvent w e event = ⟨.ret (some .ErrorMissingTitle), []⟩) := by
  constructor
  · intro h
    have hv : isNewEventValid event = some .ErrorMissingDates := by
      unfold isNewEventValid
      rcases h with h | h | h | h <;> simp [h]
    simp [UpdateEvent, hid, hne, hv, Run.pure_eq]
  · rintro ⟨s, hs, hs0⟩ ⟨t, ht, ht0⟩ h
    have hv : isNewEventValid event = some .ErrorMissingTitle := by
      unfold isNewEventValid
      rcases h with h | h <;> simp [h, hs, ht, hs0, ht0]
    simp [UpdateEvent, hid, hne, hv, Run.pure_eq]

/-- C8 at concrete events with the id `e1abc`: one with an empty end, asked of a remote
service that fails every call, and one without title. -/
theorem UpdateEvent_missing_field_witness :
    UpdateEvent failingWorld sampleConnector { sampleEvent with End := some "" }
      = ⟨.ret (some .ErrorMissingDates), []⟩ ∧
    UpdateEvent sampleWorld sampleConnector { sampleEvent with Title := none }
      = ⟨.ret (some .ErrorMissingTitle), []⟩ :=
  ⟨(UpdateEvent_missing_field failingWorld sampleConnector
      { sampleEvent with End := some "" } "e1abc" rfl (by decide)).1
      (Or.inr (Or.inr (Or.inr rfl))),
   (UpdateEvent_missing_field sampleWorld sampleConnector
      { sampleEvent with Title := none } "e1abc" rfl (by decide)).2
      ⟨_, rfl, by decide⟩ ⟨_, rfl, by decide⟩ (Or.inl rfl)⟩

theorem Run.panic_bind {α β : Type} (msg : String) (t : List Action) (k : α → Run β) :
    (⟨.panic msg, t⟩ : Run α) >>= k = ⟨.panic msg, t⟩ := rfl

/-- The four ways `getCalendarService` can end; the registry lookup is always its first
call. -/
theorem getCalendarService_cases (w : World) (e : CalendarConnector) :
    getCalendarService w e = ⟨.ret (.error .ErrorUnknownDomain), [.configLookup e.domain]⟩ ∨
    getCalendarService w e = ⟨.panic "no context provided", [.configLookup e.domain]⟩ ∨
    (∃ cfg ctx err, getCalendarService w e
      = ⟨.ret (.error (.external err)), [.configLookup e.domain, .newService ctx cfg]⟩) ∨
    (∃ cfg ctx srv, w.configs e.domain = some cfg ∧ e.context = some ctx ∧
      w.newService ctx cfg = .ok srv ∧
      getCalendarService w e
        = ⟨.ret (.ok srv), [.configLookup e.domain, .newService ctx cfg]⟩) := by
  cases hcfg : w.configs e.domain with
  | none => exact Or.inl (getCalendarService_unknown w e hcfg)
  | some cfg =>
    cases hctx : e.context with
    | none =>
      refine Or.inr (Or.inl ?_)
      simp [getCalendarService, hcfg, hctx, Run.panic]
    | some ctx =>
      cases hsrv : w.newService ctx cfg with
      | error err =>
        refine Or.inr (Or.inr (Or.inl ⟨cfg, ctx, err, ?_⟩))
        simp [getCalendarService, hcfg, hctx, hsrv, Run.pure_eq]
      | ok srv =>
        exact Or.inr (Or.inr (Or.inr ⟨cfg, ctx, srv, rfl, rfl, hsrv,
          getCalendarService_ok w e cfg ctx srv hcfg hctx hsrv⟩))

/-- The run of `PatchEvent` for a non-empty id, in terms of the run of
`getCalendarService`. -/
theorem PatchEvent_run (w : World) (e : CalendarConnector) (event : global.Event)
    (id : String) (hid : event.ID = some id) (hne : id ≠ "") :
    PatchEvent w e event
      = getCalendarService w e >>= fun srv =>
          match srv with
          | .error err => pure (some err)
          | .ok srv =>
            Run.call (.eventsPatch "primary" id (mergedInto e event {}) (sendUpdates e))
              (w.patchDo srv "primary" id (mergedInto e event {}) (sendUpdates e)) >>=
              fun r => pure (answerError r) := by
  simp [PatchEvent, hid, hne]

/-- C9: the validation of `PatchEvent` fails exactly when the id is absent or empty. In
that case it returns `ErrorMissingEventID` before any call. For every event with a
non-empty id, whatever its other fields, `PatchEvent` returns none of
`ErrorMissingEventID`, `ErrorMissingDates`, `ErrorMissingTitle` and `ErrorBadID`, its
first call is the registry lookup, and when the domain is registered and the client can be
built it ends with the patch call for that id, carrying the merge of the event into a blank
remote event, and returns the error of that call. -/
theorem PatchEvent_validation (w : World) (e : CalendarConnector) (event : global.Event) :
    ((event.ID = none ∨ event.ID = some "") →
      PatchEvent w e event = ⟨.ret (some .ErrorMissingEventID), []⟩) ∧
    (∀ id, event.ID = some id → id ≠ "" →
      (PatchEvent w e event).out ≠ .ret (some .ErrorMissingEventID) ∧
      (PatchEvent w e event).out ≠ .ret (some .ErrorMissingDates) ∧
      (PatchEvent w e event).out ≠ .ret (some .ErrorMissingTitle) ∧
      (PatchEvent w e event).out ≠ .ret (some .ErrorBadID) ∧
      (∃ rest, (PatchEvent w e event).trace = .configLookup e.domain :: rest) ∧
      (∀ cfg ctx srv, w.configs e.domain = some cfg → e.context = some ctx →
        w.newService ctx cfg = .ok srv →
        PatchEvent w e event
          = ⟨.ret (answerError
                (w.patchDo srv "primary" id (mergedInto e event {}) (sendUpdates e))),
              [.configLookup e.domain, .newService ctx cfg,
               .eventsPatch "primary" id (mergedInto e event {}) (sendUpdates e)]⟩)) := by
  constructor
  · intro h
    rcases h with h | h <;> simp [PatchEvent, h, Run.pure_eq]
  · intro id hid hne
    have hrun := PatchEvent_run w e event id hid hne
    have hok : ∀ cfg ctx srv, w.configs e.domain = some cfg → e.context = some ctx →
        w.newService ctx cfg = .ok srv →
        PatchEvent w e event
          = ⟨.ret (answerError
                (w.patchDo srv "primary" id (mergedInto e event {}) (sendUpdates e))),
              [.configLookup e.domain, .newService ctx cfg,
               .eventsPatch "primary" id (mergedInto e event {}) (sendUpdates e)]⟩ := by
      intro cfg ctx srv hcfg hctx hsrv
      rw [hrun, getCalendarService_ok w e cfg ctx srv hcfg hctx hsrv, Run.ret_bind]
      simp [Run.pure_eq]
    rcases getCalendarService_cases w e with h | h | ⟨cfg, ctx, err, h⟩ |
      ⟨cfg, ctx, srv, hcfg, hctx, hsrv, _⟩
    · have hp : PatchEvent w e event
          = ⟨.ret (some .ErrorUnknownDomain), [.configLookup e.domain]⟩ := by
        rw [hrun, h, Run.ret_bind]; rfl
      rw [hp]
      refine ⟨by simp, by simp, by simp, by simp, ⟨_, rfl⟩, hp ▸ hok⟩
    · have hp : PatchEvent w e event
          = ⟨.panic "no context provided", [.configLookup e.domain]⟩ := by
        rw [hrun, h, Run.panic_bind]
      rw [hp]
      refine ⟨by simp, by simp, by simp, by simp, ⟨_, rfl⟩, hp ▸ hok⟩
    · have hp : PatchEvent w e event
          = ⟨.ret (some (.external err)),
              [.configLookup e.domain, .newService ctx cfg]⟩ := by
        rw [hrun, h, Run.ret_bind]; rfl
      rw [hp]
      refine ⟨by simp, by simp, by simp, by simp, ⟨_, rfl⟩, hp ▸ hok⟩
    · have hp := hok cfg ctx srv hcfg hctx hsrv
      have hans : ∀ x : Except ExternalError calendar.Event,
          answerError x ≠ some .ErrorMissingEventID ∧ answerError x ≠ some .ErrorMissingDates ∧
          answerError x ≠ some .ErrorMissingTitle ∧ answerError x ≠ some .ErrorBadID := by
        intro x
        cases x <;> simp [answerError]
      obtain ⟨a1, a2, a3, a4⟩ :=
        hans (w.patchDo srv "primary" id (mergedInto e event {}) (sendUpdates e))
      rw [hp]
      refine ⟨?_, ?_, ?_, ?_, ⟨_, rfl⟩, hp ▸ hok⟩
      · intro h; exact a1 (Outcome.ret.inj h)
      · intro h; exact a2 (Outcome.ret.inj h)
      · intro h; exact a3 (Outcome.ret.inj h)
      · intro h; exact a4 (Outcome.ret.inj h)

/-- C9 at concrete events: an event without id, and an event that has nothing but the id
`e1abc` and a description, which is patched. -/
theorem PatchEvent_validation_witness :
    PatchEvent sampleWorld sampleConnector { Title := some "Review" }
      = ⟨.ret (some .ErrorMissingEventID), []⟩ ∧
    PatchEvent sampleWorld sampleConnector { ID := some "e1abc", Description := some "moved" }
      = ⟨.ret none,
          [.configLookup "example.org", .newService ⟨0⟩ { Email := "svc@example.org" },
           .eventsPatch "primary" "e1abc" { Description := "moved" } none]⟩ :=
  ⟨(PatchEvent_validation sampleWorld sampleConnector { Title := some "Review" }).1
      (Or.inl rfl),
   ((PatchEvent_validation sampleWorld sampleConnector
      { ID := some "e1abc", Description := some "moved" }).2 "e1abc" rfl (by decide)).2.2.2.2.2
      { Email := "svc@example.org" } ⟨0⟩ ⟨⟨0⟩, { Email := "svc@example.org" }⟩ rfl rfl rfl⟩

/-! ## Options and participants in the field merge (C11, C12) -/

/-- C11: in the field merge each of the four options is tri-state. A set guests-can-modify
option writes its value into `GuestsCanModify`, a set guests-can-invite-others or
guests-can-see-other-guests option writes a pointer to its value into
`GuestsCanInviteOthers` or `GuestsCanSeeOtherGuests`, and a set event-is-private option
writes the visibility `private` when true and `default` when false; an unset option leaves
its target field as it was. -/
theorem copyGoogleEventUpdate_options (e : CalendarConnector) (event : global.Event)
    (target : calendar.Event) :
    (∀ b, e.guestsCanModify = some b →
      (mergedInto e event target).GuestsCanModify = b) ∧
    (e.guestsCanModify = none →
      (mergedInto e event target).GuestsCanModify = target.GuestsCanModify) ∧
    (∀ b, e.guestsCanInvite = some b →
      (mergedInto e event target).GuestsCanInviteOthers = some b) ∧
    (e.guestsCanInvite = none →
      (mergedInto e event target).GuestsCanInviteOthers = target.GuestsCanInviteOthers) ∧
    (∀ b, e.guestsCanSeeGuests = some b →
      (mergedInto e event target).GuestsCanSeeOtherGuests = some b) ∧
    (e.guestsCanSeeGuests = none →
      (mergedInto e event target).GuestsCanSeeOtherGuests = target.GuestsCanSeeOtherGuests) ∧
    (e.privateEvent = some true → (mergedInto e event target).Visibility = "private") ∧
    (e.privateEvent = some false → (mergedInto e event target).Visibility = "default") ∧
    (e.privateEvent = none → (mergedInto e event target).Visibility = target.Visibility) := by
  simp only [mergedInto_fields]
  refine ⟨?_, ?_, ?_, ?_, ?_, ?_, ?_, ?_, ?_⟩
  · intro b h; simp only [h]
  · intro h; simp only [h]
  · intro b h; simp only [h]
  · intro h; simp only [h]
  · intro b h; simp only [h]
  · intro h; simp only [h]
  · intro h; simp only [h, if_true]
  · intro h; simp [h]
  · intro h; simp only [h]

/-- C11 at concrete merges onto `storedEvent`, whose visibility is empty and whose
guests-can-modify flag is false: a connector that sets event-is-private to false and
guests-can-modify to true, and a connector without options. -/
theorem copyGoogleEventUpdate_options_witness :
    (mergedInto { sampleConnector with privateEvent := some false, guestsCanModify := some true }
        {} storedEvent).Visibility = "default" ∧
    (mergedInto { sampleConnector with privateEvent := some false, guestsCanModify := some true }
        {} storedEvent).GuestsCanModify = true ∧
    (mergedInto sampleConnector {} storedEvent).Visibility = "" :=
  ⟨(copyGoogleEventUpdate_options
      { sampleConnector with privateEvent := some false, guestsCanModify := some true }
      {} storedEvent).2.2.2.2.2.2.2.1 rfl,
   (copyGoogleEventUpdate_options
      { sampleConnector with privateEvent := some false, guestsCanModify := some true }
      {} storedEvent).1 true rfl,
   (copyGoogleEventUpdate_options sampleConnector {} storedEvent).2.2.2.2.2.2.2.2 rfl⟩

theorem foldl_append_singleton {α β : Type} (f : α → β) (l : List α) (init : List β) :
    l.foldl (fun acc x => acc ++ [f x]) init = init ++ l.map f := by
  induction l generalizing init with
  | nil => simp
  | cons a l ih => simp [List.foldl_cons, ih]

/-- C12: when the participants of the inbound event are present, the merged attendee list
does not depend on the attendees of the target: it is the list of the given emails, in
their order, each made into an attendee with that email, with the response status
`accepted` when the auto-accept option is set and true and `needsAction` otherwise, and
with every other attendee field at its zero value. In particular it has the length of the
email list and its i-th attendee has the i-th email. -/
theorem copyGoogleEventUpdate_participants (e : CalendarConnector) (event : global.Event)
    (target : calendar.Event) (emails : List String)
    (hpresent : event.Participants = some emails) :
    (mergedInto e event target).Attendees
      = emails.map (fun email =>
          ({ Email := email,
             ResponseStatus := if e.autoAccept = some true then "accepted" else "needsAction" } :
            calendar.EventAttendee)) ∧
    (mergedInto e event target).Attendees.length = emails.length ∧
    (mergedInto e event target).Attendees.map (fun a => a.Email) = emails ∧
    (∀ (i : Nat) (email : String), emails[i]? = some email →
      ((mergedInto e event target).Attendees[i]?).map
        (fun a : calendar.EventAttendee => a.Email) = some email) ∧
    (e.autoAccept = some true →
      ∀ a ∈ (mergedInto e event target).Attendees, a.ResponseStatus = "accepted") ∧
    (e.autoAccept ≠ some true →
      ∀ a ∈ (mergedInto e event target).Attendees, a.ResponseStatus = "needsAction") := by
  have hlist : (mergedInto e event target).Attendees
      = emails.map (fun email =>
          ({ Email := email,
             ResponseStatus := if e.autoAccept = some true then "accepted" else "needsAction" } :
            calendar.EventAttendee)) := by
    simp only [mergedInto_fields, hpresent, foldl_append_singleton, respStatus, List.nil_append]
  rw [hlist]
  refine ⟨rfl, by simp, ?_, ?_, ?_, ?_⟩
  · simp [List.map_map, Function.comp_def]
  · intro i email hi
    simp [List.getElem?_map, hi]
  · intro h a ha
    obtain ⟨email, _, rfl⟩ := List.mem_map.mp ha
    simp [h]
  · intro h a ha
    obtain ⟨email, _, rfl⟩ := List.mem_map.mp ha
    simp [h]

/-- C12 at a concrete merge: two participants merged onto `storedEvent`, which already has
two attendees, by a connector whose auto-accept option is true. -/
theorem copyGoogleEventUpdate_participants_witness :
    (mergedInto { sampleConnector with autoAccept := some true }
        { Participants := some ["c@x.com", "a@x.com"] } storedEvent).Attendees
      = [attendee "c@x.com" "accepted", attendee "a@x.com" "accepted"] :=
  (copyGoogleEventUpdate_participants { sampleConnector with autoAccept := some true }
    { Participants := some ["c@x.com", "a@x.com"] } storedEvent ["c@x.com", "a@x.com"] rfl).1

/-! ## Response status of added participants (C13) -/

/-- C13: once the event is fetched, `AddParticipants` sends one patch, and the attendee
list of that patch is the list of the fetched attendees, unchanged and in their order
(response status included), followed by the list `added`, which holds one attendee per
occurrence of an input email that no fetched attendee has, in input order; every added
attendee has an empty response status and every other field but its email at the zero
value, whatever the options of the connector are (the auto-accept option among them). -/
theorem AddParticipants_appends (w : World) (e : CalendarConnector) (cfg : JwtConfig)
    (ctx : Context) (srv : Service) (eventID : String) (toAdd : List String)
    (existing : calendar.Event) (hid : eventID ≠ "")
    (hcfg : w.configs e.domain = some cfg) (hctx : e.context = some ctx)
    (hsrv : w.newService ctx cfg = .ok srv)
    (hget : w.getDo srv "primary" eventID = .ok existing) :
    ∃ added : List calendar.EventAttendee,
      (AddParticipants w e eventID toAdd).trace.filter Action.isRemote
        = [.eventsGet "primary" eventID,
           .eventsPatch "primary" eventID { Attendees := existing.Attendees ++ added }
             (sendUpdates e)] ∧
      existing.Attendees <+: existing.Attendees ++ added ∧
      added.map (fun a => a.Email)
        = toAdd.filter (fun u => !decide (u ∈ existing.Attendees.map (fun a => a.Email))) ∧
      (added.map (fun a => a.Email)).Sublist toAdd ∧
      (∀ a ∈ added, a.ResponseStatus = "" ∧ a = { Email := a.Email } ∧ a.Email ∈ toAdd ∧
        a.Email ∉ existing.Attendees.map (fun a => a.Email)) := by
  refine ⟨(toAdd.filter
      (fun u => !decide (u ∈ existing.Attendees.map (fun a => a.Email)))).map
      (fun u => ({ Email := u } : calendar.EventAttendee)), ?_, ?_, ?_, ?_, ?_⟩
  · rw [AddParticipants_run w e cfg ctx srv eventID toAdd existing hid hcfg hctx hsrv hget,
      extendedAttendees_eq]
    simp [Action.isRemote]
  · exact List.prefix_append _ _
  · rw [List.map_map]
    exact List.map_id _
  · rw [List.map_map]
    have hid2 : ((fun a : calendar.EventAttendee => a.Email) ∘
        fun u => ({ Email := u } : calendar.EventAttendee)) = id := rfl
    rw [hid2, List.map_id]
    exact List.filter_sublist _
  · intro a ha
    obtain ⟨u, hu, rfl⟩ := List.mem_map.mp ha
    have hmem := List.mem_filter.mp hu
    refine ⟨rfl, rfl, hmem.1, ?_⟩
    intro hin
    have h2 := hmem.2
    simp only [Bool.not_eq_true', decide_eq_false_iff_not] at h2
    exact h2 hin

/-- C13 at a concrete call: adding `a@x.com` and `b@x.com` to `soloEvent`, whose only
attendee `a@x.com` has accepted, with a connector whose auto-accept option is true. -/
theorem AddParticipants_appends_witness :
    AddParticipants sampleWorld { sampleConnector with autoAccept := some true } "solo1"
        ["a@x.com", "b@x.com"]
      = ⟨.ret none,
          [.configLookup "example.org", .newService ⟨0⟩ { Email := "svc@example.org" },
           .configLookup "example.org", .configLookup "example.org",
           .newService ⟨0⟩ { Email := "svc@example.org" },
           .eventsGet "primary" "solo1",
           .eventsPatch "primary" "solo1"
             { Attendees := [attendee "a@x.com" "accepted", { Email := "b@x.com" }] } none]⟩ ∧
    ∃ added : List calendar.EventAttendee,
      (AddParticipants sampleWorld { sampleConnector with autoAccept := some true } "solo1"
          ["a@x.com", "b@x.com"]).trace.filter Action.isRemote
        = [.eventsGet "primary" "solo1",
           .eventsPatch "primary" "solo1" { Attendees := soloEvent.Attendees ++ added }
             (sendUpdates { sampleConnector with autoAccept := some true })] ∧
      ∀ a ∈ added, a.ResponseStatus = "" := by
  refine ⟨by decide, ?_⟩
  obtain ⟨added, h1, _, _, _, h5⟩ := AddParticipants_appends sampleWorld
    { sampleConnector with autoAccept := some true } { Email := "svc@example.org" }
    ⟨0⟩ ⟨⟨0⟩, { Email := "svc@example.org" }⟩ "solo1" ["a@x.com", "b@x.com"] soloEvent
    (by decide) rfl rfl rfl rfl
  exact ⟨added, h1, fun a ha => (h5 a ha).1⟩

/-! ## The valid event ids (C14) -/

theorem lowerAlnum_iff (c : Char) :
    lowerAlnum c = true ↔ (('a' ≤ c ∧ c ≤ 'z') ∨ ('0' ≤ c ∧ c ≤ '9')) := by
  have hle : ∀ a b : Char, a ≤ b ↔ a.toNat ≤ b.toNat := fun a b => Iff.rfl
  simp only [lowerAlnum, Bool.or_eq_true, Bool.and_eq_true, decide_eq_true_eq, hle]
  exact Iff.rfl

theorem matchStar_iff (cs : List Char) :
    matchStar cs = true ↔ ∀ c ∈ cs, lowerAlnum c = true := by
  induction cs with
  | nil => simp [matchStar]
  | cons c cs ih => simp [matchStar, ih]

theorem matchPlus_eq_matchStar (cs : List Char) (h : cs ≠ []) :
    matchPlus cs = matchStar cs := by
  cases cs with
  | nil => exact absurd rfl h
  | cons c cs => rfl

/-- An id of 5 to 1024 characters that matches `^[a-z0-9]+$` is accepted by
`isValidEventID`. -/
theorem isValidEventID_true (ID : String) (h5 : 5 ≤ ID.length) (h1024 : ID.length ≤ 1024)
    (hm : matchPlus ID.toList = true) : isValidEventID ID = .ret true := by
  obtain ⟨cs⟩ := ID
  simp only [String.toList, String.length] at h5 h1024 hm
  have hne : cs ≠ [] := by
    intro h
    rw [h] at h5
    exact absurd h5 (by decide)
  have hstar : matchStar cs = true := by
    rw [← matchPlus_eq_matchStar cs hne]
    exact hm
  have hb := matchStar_byteSize cs hstar
  unfold isValidEventID
  simp only [String.utf8ByteSize, matchStringStar, String.toList]
  split
  · next hcond =>
    simp only [Bool.or_eq_true, decide_eq_true_eq] at hcond
    omega
  · show Outcome.ret (matchStar cs) = .ret true
    rw [hstar]

/-- C14: `isValidEventID` is the specified predicate: it returns, and returns true exactly
when the id has a length of 5 to 1024 and every character of it is a lowercase letter
`a` to `z` or a digit `0` to `9`. The length can be counted in characters, as the
specification reads, or in bytes, as the code does: on texts of that class the two agree.
On ids of at least 5 bytes (or characters) the pattern of the code, with `*`, and the
specified one, with `+`, accept the same texts; and the call never panics, since matching
against the constant pattern gives no error. -/
theorem isValidEventID_spec (ID : String) :
    isValidEventID ID = .ret (specValidEventID ID) ∧
    (isValidEventID ID = .ret true ↔
      5 ≤ ID.length ∧ ID.length ≤ 1024 ∧
        ∀ c ∈ ID.toList, ('a' ≤ c ∧ c ≤ 'z') ∨ ('0' ≤ c ∧ c ≤ '9')) ∧
    (isValidEventID ID = .ret true ↔
      5 ≤ ID.utf8ByteSize ∧ ID.utf8ByteSize ≤ 1024 ∧
        ∀ c ∈ ID.toList, ('a' ≤ c ∧ c ≤ 'z') ∨ ('0' ≤ c ∧ c ≤ '9')) ∧
    (5 ≤ ID.utf8ByteSize → matchStar ID.toList = matchPlus ID.toList) ∧
    (5 ≤ ID.length → matchStar ID.toList = matchPlus ID.toList) ∧
    (∀ err, matchStringStar ID ≠ .error err) ∧
    (∀ msg, isValidEventID ID ≠ .panic msg) := by
  have hclass : (∀ c ∈ ID.toList, ('a' ≤ c ∧ c ≤ 'z') ∨ ('0' ≤ c ∧ c ≤ '9'))
      ↔ matchStar ID.toList = true := by
    rw [matchStar_iff]
    exact forall₂_congr (fun c _ => (lowerAlnum_iff c).symm)
  have hbytes : matchStar ID.toList = true → ID.utf8ByteSize = ID.length := by
    intro h
    obtain ⟨cs⟩ := ID
    exact matchStar_byteSize cs h
  have hne5 : 5 ≤ ID.length → ID.toList ≠ [] := by
    obtain ⟨cs⟩ := ID
    intro h hnil
    simp only [String.toList] at hnil
    simp only [String.length, hnil] at h
    exact absurd h (by decide)
  have hlen : ID.length ≤ ID.utf8ByteSize := by
    obtain ⟨cs⟩ := ID
    exact length_le_byteSize cs
  have hne5b : 5 ≤ ID.utf8ByteSize → ID.toList ≠ [] := by
    obtain ⟨cs⟩ := ID
    intro h hnil
    simp only [String.toList] at hnil
    simp only [String.utf8ByteSize, hnil, String.utf8ByteSize.go] at h
    exact absurd h (by decide)
  have hmain : isValidEventID ID = .ret (specValidEventID ID) := by
    cases hs : specValidEventID ID with
    | true =>
      simp only [specValidEventID, Bool.and_eq_true, decide_eq_true_eq] at hs
      exact isValidEventID_true ID hs.1.1 hs.1.2 hs.2
    | false =>
      apply isValidEventID_false
      simp only [specValidEventID, Bool.and_eq_false_iff, decide_eq_false_iff_not] at hs
      rcases hs with (h | h) | h
      · exact Or.inr (Or.inr (Or.inr (Or.inl (by omega))))
      · exact Or.inr (Or.inr (Or.inr (Or.inr (by omega))))
      · exact Or.inl h
  have hiff : isValidEventID ID = .ret true ↔
      5 ≤ ID.length ∧ ID.length ≤ 1024 ∧
        ∀ c ∈ ID.toList, ('a' ≤ c ∧ c ≤ 'z') ∨ ('0' ≤ c ∧ c ≤ '9') := by
    rw [hmain, hclass]
    constructor
    · intro h
      have hs : specValidEventID ID = true := Outcome.ret.inj h
      simp only [specValidEventID, Bool.and_eq_true, decide_eq_true_eq] at hs
      refine ⟨hs.1.1, hs.1.2, ?_⟩
      rw [← matchPlus_eq_matchStar _ (hne5 hs.1.1)]
      exact hs.2
    · rintro ⟨h5, h1024, hm⟩
      have hs : specValidEventID ID = true := by
        simp only [specValidEventID, Bool.and_eq_true, decide_eq_true_eq]
        exact ⟨⟨h5, h1024⟩, by rw [matchPlus_eq_matchStar _ (hne5 h5)]; exact hm⟩
      rw [hs]
  refine ⟨hmain, hiff, ?_, ?_, ?_, ?_, ?_⟩
  · rw [hiff]
    constructor
    · rintro ⟨h5, h1024, hc⟩
      have hb := hbytes (hclass.mp hc)
      exact ⟨by omega, by omega, hc⟩
    · rintro ⟨h5, h1024, hc⟩
      have hb := hbytes (hclass.mp hc)
      exact ⟨by omega, by omega, hc⟩
  · intro h
    exact (matchPlus_eq_matchStar _ (hne5b h)).symm
  · intro h
    exact (matchPlus_eq_matchStar _ (hne5 h)).symm
  · intro err h
    simp [matchStringStar] at h
  · intro msg h
    rw [hmain] at h
    cases h

/-- C14 at concrete ids: `e1abc` is valid, `ab12` is too short, `Event01` has an upper-case
letter, and the five-character id `é1abc` has a character outside of the class. -/
theorem isValidEventID_spec_witness :
    isValidEventID "e1abc" = .ret true ∧ isValidEventID "ab12" = .ret false ∧
    isValidEventID "Event01" = .ret false ∧ isValidEventID "é1abc" = .ret false ∧
    matchStar "e1abc".toList = matchPlus "e1abc".toList :=
  ⟨(isValidEventID_spec "e1abc").1.trans (by decide),
   (isValidEventID_spec "ab12").1.trans (by decide),
   (isValidEventID_spec "Event01").1.trans (by decide),
   (isValidEventID_spec "é1abc").1.trans (by decide),
   (isValidEventID_spec "e1abc").2.2.2.1 (by decide)⟩

end googlecal
